import Mathlib

/-!
# Bid closing in the e-waste marketplace admin backend

A shallow embedding of `AdminController.closeBidding`
(`src/controllers/adminController.js`, lines 66-165) together with the SQL
statements it sends, and the properties of the bid-closing transaction.

The handler is embedded as a tree of awaited store operations (`Prog`), one
node per `await` of the source, so that the same text can be run to
completion against one connection (`run`) and stepped against another
request on a second connection (`step`, `interleave`).
-/

namespace Hackdemo

/-! ## Data model: the three tables the handler touches -/

/-- A row of `ewaste_items`, with the columns the queries of the repository name. -/
structure Item where
  id : Nat
  unique_id : String
  type : String
  category : String
  serial_no : String
  dept : String
  status : String
  coordinator_id : Option Nat
  created_at : Nat
  updated_at : Nat
deriving DecidableEq, Repr

/-- A row of `recyclers`. -/
structure Recycler where
  id : Nat
  company_name : String
deriving DecidableEq, Repr

/-- A row of `bids`; `bid_amount` is counted in the smallest currency unit. -/
structure Bid where
  id : Nat
  ewaste_item_id : Nat
  recycler_id : Nat
  bid_amount : Int
  status : String
deriving DecidableEq, Repr

/-- The contents of the relational store, each table in its scan order. -/
structure Store where
  items : List Item
  bids : List Bid
  recyclers : List Recycler
deriving DecidableEq, Repr

/-- Modelled from the spec: the table declarations are not part of the source;
the data model says that a bid references a recycler, which is the foreign key
`bids.recycler_id -> recyclers.id`. -/
def Store.BidsReferenceRecyclers (s : Store) : Prop :=
  ∀ b ∈ s.bids, ∃ r ∈ s.recyclers, r.id = b.recycler_id

instance (s : Store) : Decidable s.BidsReferenceRecyclers :=
  inferInstanceAs (Decidable (∀ b ∈ s.bids, ∃ r ∈ s.recyclers, r.id = b.recycler_id))

/-- Modelled from the spec: the table declarations are not part of the source;
the data model says that an item is identified by its unique external-facing
id, so no two rows of `ewaste_items` share a `unique_id`. -/
def Store.UniqueIds (s : Store) : Prop :=
  s.items.Pairwise fun a b => a.unique_id ≠ b.unique_id

instance (s : Store) : Decidable s.UniqueIds :=
  inferInstanceAs (Decidable (s.items.Pairwise fun (a b : Item) => a.unique_id ≠ b.unique_id))

/-! ## The SQL statements of `closeBidding` -/

/-- A result row of `SELECT id, unique_id, type, serial_no FROM ewaste_items`. -/
structure ItemRow where
  id : Nat
  unique_id : String
  type : String
  serial_no : String
deriving DecidableEq, Repr

/-- A result row of `SELECT b.*, r.company_name, r.id as recycler_id`: the
columns of the bid, the name of the joined recycler, and `recycler_id` holding
`r.id` (the later column of that name is the one the driver keeps). -/
structure BidRow where
  id : Nat
  ewaste_item_id : Nat
  bid_amount : Int
  status : String
  company_name : String
  recycler_id : Nat
deriving DecidableEq, Repr

/-- The projection of the item query. -/
def Item.toRow (i : Item) : ItemRow :=
  { id := i.id, unique_id := i.unique_id, type := i.type, serial_no := i.serial_no }

/-- The item query (lines 75-80):
`SELECT id, unique_id, type, serial_no FROM ewaste_items
 WHERE unique_id = $1 AND status = 'available'`. -/
def selectItem (item_id : String) (s : Store) : List ItemRow :=
  (s.items.filter fun i => i.unique_id == item_id && i.status == "available").map Item.toRow

/-- The rows of `bids b JOIN recyclers r ON b.recycler_id = r.id`. -/
def joinBidsRecyclers (s : Store) : List (Bid × Recycler) :=
  s.bids.flatMap fun b => (s.recyclers.filter fun r => b.recycler_id == r.id).map fun r => (b, r)

/-- The select list `b.*, r.company_name, r.id as recycler_id` on a joined row. -/
def toBidRow (br : Bid × Recycler) : BidRow :=
  { id := br.1.id, ewaste_item_id := br.1.ewaste_item_id, bid_amount := br.1.bid_amount,
    status := br.1.status, company_name := br.2.company_name, recycler_id := br.2.id }

/-- Insertion of a row into a list ordered by `bid_amount DESC`; among equal
amounts the row inserted goes first. -/
def insertDesc (r : BidRow) : List BidRow → List BidRow
  | [] => [r]
  | x :: xs => if x.bid_amount ≤ r.bid_amount then r :: x :: xs else x :: insertDesc r xs

/-- The clause `ORDER BY b.bid_amount DESC`. Rows of equal amount keep their
scan order, which is one of the orders the store is free to choose. -/
def orderByAmountDesc : List BidRow → List BidRow
  | [] => []
  | r :: rs => insertDesc r (orderByAmountDesc rs)

/-- The bid query (lines 93-101):
`SELECT b.*, r.company_name, r.id as recycler_id FROM bids b
 JOIN recyclers r ON b.recycler_id = r.id
 WHERE b.ewaste_item_id = $1 AND b.status = 'pending'
 ORDER BY b.bid_amount DESC LIMIT 1`. -/
def selectBid (id : Nat) (s : Store) : List BidRow :=
  (orderByAmountDesc
    (((joinBidsRecyclers s).filter fun br =>
        br.1.ewaste_item_id == id && br.1.status == "pending").map toBidRow)).take 1

/-- The item update (lines 116-123):
`UPDATE ewaste_items SET status = 'sold', coordinator_id = $1,
 updated_at = CURRENT_TIMESTAMP WHERE unique_id = $2`. -/
def updateItem (recycler_id : Nat) (item_id : String) (now : Nat) (s : Store) : Store :=
  { s with items := s.items.map fun i =>
      if i.unique_id == item_id then
        { i with status := "sold", coordinator_id := some recycler_id, updated_at := now }
      else i }

/-- The bid purge (lines 126-129): `DELETE FROM bids WHERE ewaste_item_id = $1`. -/
def deleteBids (id : Nat) (s : Store) : Store :=
  { s with bids := s.bids.filter fun b => !(b.ewaste_item_id == id) }

/-! ## The connection and its transaction -/

/-- A data-changing statement held by an open transaction until it commits. -/
inductive Write where
  | updateItem (recycler_id : Nat) (item_id : String) (now : Nat)
  | deleteBids (id : Nat)
deriving DecidableEq, Repr

/-- The effect of one held statement on the contents of the store. -/
def Write.apply : Write → Store → Store
  | .updateItem recycler_id item_id now, s => Hackdemo.updateItem recycler_id item_id now s
  | .deleteBids id, s => Hackdemo.deleteBids id s

/-- What a transaction sees: the committed contents with its own statements
applied, oldest first. -/
def view (ws : List Write) (s : Store) : Store :=
  ws.foldl (fun acc w => w.apply acc) s

/-- The operations the handler awaits, indexed by what they resolve to. -/
inductive Await : Type → Type where
  | connect : Await Unit
  | begin : Await Unit
  | itemQuery (item_id : String) : Await (List ItemRow)
  | bidQuery (id : Nat) : Await (List BidRow)
  | updateItemQuery (recycler_id : Nat) (item_id : String) : Await Unit
  | deleteBidsQuery (id : Nat) : Await Unit
  | commit : Await Unit
  | rollback : Await Unit

/-- The operations again, without their result type, for the record of what
was sent. -/
inductive Stmt where
  | connect
  | begin
  | itemQuery (item_id : String)
  | bidQuery (id : Nat)
  | updateItemQuery (recycler_id : Nat) (item_id : String)
  | deleteBidsQuery (id : Nat)
  | commit
  | rollback
deriving DecidableEq, Repr

/-- The record entry of an awaited operation. -/
def Await.stmt : Await ρ → Stmt
  | .connect => .connect
  | .begin => .begin
  | .itemQuery item_id => .itemQuery item_id
  | .bidQuery id => .bidQuery id
  | .updateItemQuery recycler_id item_id => .updateItemQuery recycler_id item_id
  | .deleteBidsQuery id => .deleteBidsQuery id
  | .commit => .commit
  | .rollback => .rollback

/-- The `item` object of the success body. -/
structure ItemInfo where
  unique_id : String
  type : String
  serial_no : String
deriving DecidableEq, Repr

/-- The `winningBid` object of the success body. -/
structure WinningBid where
  amount : Int
  recyclerName : String
  recyclerId : Nat
deriving DecidableEq, Repr

/-- An HTTP response: the status code and the fields of the JSON body. -/
structure Response where
  status : Nat
  success : Bool
  message : String
  item : Option ItemInfo
  winningBid : Option WinningBid
  recyclerName : Option String
  error : Option String
deriving DecidableEq, Repr

/-- One request as its handler and the connection it borrowed see it. -/
structure Session where
  /-- The value of `CURRENT_TIMESTAMP` in this request's transaction. -/
  now : Nat
  /-- The statements of the open transaction, `none` outside a transaction. -/
  tx : Option (List Write)
  /-- The operations awaited so far, oldest first, each with whether it succeeded. -/
  sent : List (Stmt × Bool)
  /-- The responses written so far. -/
  responses : List Response
  /-- Whether `client.release()` has run. -/
  released : Bool
  /-- The exception that left the handler, if one did. -/
  thrown : Option String
deriving DecidableEq, Repr

/-- A request that has not started. -/
def Session.init (now : Nat) : Session :=
  { now := now, tx := none, sent := [], responses := [], released := false, thrown := none }

/-- The effect of an awaited operation that succeeds, on the committed store
and on the session. Statements outside a transaction take effect at once. -/
def Await.exec : Await ρ → Store → Session → ρ × Store × Session
  | .connect, s, c => ((), s, c)
  | .begin, s, c => ((), s, { c with tx := some (c.tx.getD []) })
  | .itemQuery item_id, s, c => (selectItem item_id (view (c.tx.getD []) s), s, c)
  | .bidQuery id, s, c => (selectBid id (view (c.tx.getD []) s), s, c)
  | .updateItemQuery recycler_id item_id, s, c =>
    match c.tx with
    | some ws => ((), s, { c with tx := some (ws ++ [.updateItem recycler_id item_id c.now]) })
    | none => ((), updateItem recycler_id item_id c.now s, c)
  | .deleteBidsQuery id, s, c =>
    match c.tx with
    | some ws => ((), s, { c with tx := some (ws ++ [.deleteBids id]) })
    | none => ((), deleteBids id s, c)
  | .commit, s, c => ((), view (c.tx.getD []) s, { c with tx := none })
  | .rollback, s, c => ((), s, { c with tx := none })

/-- One awaited operation: with a fault it rejects with that message and
changes nothing, without one it takes effect; either way it is recorded. -/
def perform (q : Await ρ) (fault : Option String) (s : Store) (c : Session) :
    Except String ρ × Store × Session :=
  match fault with
  | some e => (.error e, s, { c with sent := c.sent ++ [(q.stmt, false)] })
  | none =>
    let out := q.exec s c
    (.ok out.1, out.2.1, { out.2.2 with sent := out.2.2.sent ++ [(q.stmt, true)] })

/-! ## The handler -/

/-- The code of a handler: a tree with one node per `await`, per response
written, and per release of the connection. -/
inductive Prog : Type 1 where
  | await {ρ : Type} (q : Await ρ) (k : Except String ρ → Prog)
  | respond (r : Response) (k : Prog)
  | release (k : Prog)
  | throw (e : String)
  | done

/-- The body of `res.status(404).json(...)` (lines 84-87). -/
def notEligible : Response :=
  { status := 404, success := false, message := "Item not found or not in bidding status",
    item := none, winningBid := none, recyclerName := none, error := none }

/-- The body of `res.status(400).json(...)` (lines 105-108). -/
def noBidsFound : Response :=
  { status := 400, success := false, message := "No bids found for this item",
    item := none, winningBid := none, recyclerName := none, error := none }

/-- The body of `res.status(500).json(...)` (lines 157-161). -/
def internalFailure (error : String) : Response :=
  { status := 500, success := false, message := "Error closing bidding",
    item := none, winningBid := none, recyclerName := none, error := some error }

/-- The body of the final `res.json(...)` (lines 138-152). -/
def closed (item_id : String) (item : ItemRow) (winningBid : BidRow) : Response :=
  { status := 200, success := true, message := "Bidding closed successfully",
    item := some { unique_id := item_id, type := item.type, serial_no := item.serial_no },
    winningBid := some { amount := winningBid.bid_amount,
                         recyclerName := winningBid.company_name,
                         recyclerId := winningBid.recycler_id },
    recyclerName := some winningBid.company_name, error := none }

/-- The `catch (error)` block followed by `finally` (lines 154-164): roll back,
answer 500, release. When the rollback itself rejects, the connection is
released and the rejection leaves the handler. -/
def catchBlock (error : String) : Prog :=
  .await .rollback fun r =>
    match r with
    | .error e => .release (.throw e)
    | .ok _ => .respond (internalFailure error) (.release .done)

/-- `AdminController.closeBidding` (lines 66-165). `pool.connect()` is awaited
before the `try`, so its rejection leaves the handler at once; every later
rejection enters `catchBlock`; every path out of the `try` releases the
connection. -/
def closeBidding (item_id : String) : Prog :=
  .await .connect fun r =>
  match r with
  | .error e => .throw e
  | .ok _ =>
  .await .begin fun r =>
  match r with
  | .error e => catchBlock e
  | .ok _ =>
  .await (.itemQuery item_id) fun r =>
  match r with
  | .error e => catchBlock e
  | .ok [] =>
    .await .rollback fun r =>
      match r with
      | .error e => catchBlock e
      | .ok _ => .respond notEligible (.release .done)
  | .ok (item :: _) =>
  .await (.bidQuery item.id) fun r =>
  match r with
  | .error e => catchBlock e
  | .ok [] =>
    .await .rollback fun r =>
      match r with
      | .error e => catchBlock e
      | .ok _ => .respond noBidsFound (.release .done)
  | .ok (winningBid :: _) =>
  .await (.updateItemQuery winningBid.recycler_id item_id) fun r =>
  match r with
  | .error e => catchBlock e
  | .ok _ =>
  .await (.deleteBidsQuery item.id) fun r =>
  match r with
  | .error e => catchBlock e
  | .ok _ =>
  .await .commit fun r =>
  match r with
  | .error e => catchBlock e
  | .ok _ => .respond (closed item_id item winningBid) (.release .done)

/-- One node of a handler against the committed store; `fault` is what the
store does to the operation if the node is an `await`. -/
def step (fault : Option String) : Prog → Store → Session → Prog × Store × Session
  | .await q k, s, c =>
    let out := perform q fault s c
    (k out.1, out.2.1, out.2.2)
  | .respond r k, s, c => (k, s, { c with responses := c.responses ++ [r] })
  | .release k, s, c => (k, s, { c with released := true })
  | .throw e, s, c => (.done, s, { c with thrown := some e })
  | .done, s, c => (.done, s, c)

/-- A handler run to its end on its own; `faults n` is what the store does to
the `n`-th awaited operation, counted from 0. -/
def run (faults : Nat → Option String) : Prog → Store → Session → Store × Session
  | .await q k, s, c =>
    let out := perform q (faults c.sent.length) s c
    run faults (k out.1) out.2.1 out.2.2
  | .respond r k, s, c => run faults k s { c with responses := c.responses ++ [r] }
  | .release k, s, c => run faults k s { c with released := true }
  | .throw e, s, c => (s, { c with thrown := some e })
  | .done, s, c => (s, c)

/-- No operation fails. -/
def noFaults : Nat → Option String := fun _ => none

/-- Only the `k`-th awaited operation fails, with message `e`. -/
def faultAt (k : Nat) (e : String) : Nat → Option String :=
  fun n => if n = k then some e else none

/-- A request in flight: the code still to run and its session. -/
structure Request where
  prog : Prog
  session : Session

/-- Two requests on two connections of one store: each entry of the schedule
lets the first (`false`) or the second (`true`) request run its next node. -/
def interleave : List Bool → Store → Request → Request → Store × Request × Request
  | [], s, a, b => (s, a, b)
  | false :: rest, s, a, b =>
    let out := step none a.prog s a.session
    interleave rest out.2.1 { prog := out.1, session := out.2.2 } b
  | true :: rest, s, a, b =>
    let out := step none b.prog s b.session
    interleave rest out.2.1 a { prog := out.1, session := out.2.2 }

/-- The outcome of `closeBidding` for `item_id` on store `s` at time `now`. -/
def closeBiddingOn (faults : Nat → Option String) (item_id : String) (now : Nat) (s : Store) :
    Store × Session :=
  run faults (closeBidding item_id) s (Session.init now)

/-- Whether a handler has nothing left to run. -/
def Prog.finished : Prog → Bool
  | .done => true
  | _ => false

/-- A request for `closeBidding` on `item_id` that is about to start. -/
def Request.start (item_id : String) (now : Nat) : Request :=
  { prog := closeBidding item_id, session := Session.init now }

/-- A schedule of two calls that overlap: each call connects, begins and runs
its two lookups; then the first call updates, deletes, commits, answers and
releases; then the second call does the same. -/
def overlappedSchedule : List Bool :=
  [false, false, false, false, true, true, true, true,
   false, false, false, false, false, true, true, true, true, true]

/-! ## Stages of two interleaved calls -/

/-- How far a call has got on a store that rejects nothing, by the number of
nodes it has run: `s` while the item lookup has not answered, `h` once it has
found the item (and, from `h4` on, the bid lookup a bid), `n` once the item
lookup has found nothing, `b` once the bid lookup has found nothing. -/
inductive Stage where
  | s0 | s1 | s2
  | h3 | h4 | h5 | h6 | h7 | h8 | h9
  | n3 | n4 | n5 | n6
  | b4 | b5 | b6 | b7
deriving DecidableEq, Repr

/-- Whether the call has sent its `COMMIT`. -/
def Stage.committed : Stage → Bool
  | .h7 => true
  | .h8 => true
  | .h9 => true
  | _ => false

/-- Whether the call has run its last node. -/
def Stage.finished : Stage → Bool
  | .h9 => true
  | .n6 => true
  | .b7 => true
  | _ => false

/-- The stage after one more node; the two lookups find nothing exactly when
the other call has committed. -/
def Stage.next (otherCommitted : Bool) : Stage → Stage
  | .s0 => .s1
  | .s1 => .s2
  | .s2 => if otherCommitted then .n3 else .h3
  | .h3 => if otherCommitted then .b4 else .h4
  | .h4 => .h5
  | .h5 => .h6
  | .h6 => .h7
  | .h7 => .h8
  | .h8 => .h9
  | .h9 => .h9
  | .n3 => .n4
  | .n4 => .n5
  | .n5 => .n6
  | .n6 => .n6
  | .b4 => .b5
  | .b5 => .b6
  | .b6 => .b7
  | .b7 => .b7

/-- The stages of the two calls after a schedule. -/
def stagesAfter : List Bool → Stage × Stage → Stage × Stage
  | [], p => p
  | false :: rest, p => stagesAfter rest (p.1.next p.2.committed, p.2)
  | true :: rest, p => stagesAfter rest (p.1, p.2.next p.1.committed)

/-- A request after its next node has run against the committed store `t`. -/
def Request.advance (t : Store) (r : Request) : Request :=
  { prog := (step none r.prog t r.session).1, session := (step none r.prog t r.session).2.2 }

/-- A store without rows, on which both lookups find nothing. -/
def emptyStore : Store := { items := [], bids := [], recyclers := [] }

/-- A request after `n` more nodes have run against the committed store `t`,
whose contents the nodes are not let to change. -/
def Request.advanceN (t : Store) : Nat → Request → Request
  | 0, r => r
  | n + 1, r => (Request.advanceN t n r).advance t

/-- The request of a call for `item_id` at a stage, when the lookups that found
a row ran on `s`. -/
def Stage.request (s : Store) (item_id : String) (now : Nat) : Stage → Request
  | .s0 => Request.start item_id now
  | .s1 => (Request.start item_id now).advanceN s 1
  | .s2 => (Request.start item_id now).advanceN s 2
  | .h3 => (Request.start item_id now).advanceN s 3
  | .h4 => (Request.start item_id now).advanceN s 4
  | .h5 => (Request.start item_id now).advanceN s 5
  | .h6 => (Request.start item_id now).advanceN s 6
  | .h7 => (Request.start item_id now).advanceN s 7
  | .h8 => (Request.start item_id now).advanceN s 8
  | .h9 => (Request.start item_id now).advanceN s 9
  | .n3 => ((Request.start item_id now).advanceN s 2).advanceN emptyStore 1
  | .n4 => ((Request.start item_id now).advanceN s 2).advanceN emptyStore 2
  | .n5 => ((Request.start item_id now).advanceN s 2).advanceN emptyStore 3
  | .n6 => ((Request.start item_id now).advanceN s 2).advanceN emptyStore 4
  | .b4 => ((Request.start item_id now).advanceN s 3).advanceN emptyStore 1
  | .b5 => ((Request.start item_id now).advanceN s 3).advanceN emptyStore 2
  | .b6 => ((Request.start item_id now).advanceN s 3).advanceN emptyStore 3
  | .b7 => ((Request.start item_id now).advanceN s 3).advanceN emptyStore 4

/-- Whether the call is on a path that ends in a refusal. -/
def Stage.refused : Stage → Bool
  | .n3 => true
  | .n4 => true
  | .n5 => true
  | .n6 => true
  | .b4 => true
  | .b5 => true
  | .b6 => true
  | .b7 => true
  | _ => false

/-- Whether the item lookup of the call has answered. -/
def Stage.lookedUpItem : Stage → Bool
  | .s0 => false
  | .s1 => false
  | .s2 => false
  | _ => true

/-- Whether the bid lookup of the call has answered. -/
def Stage.lookedUpBids : Stage → Bool
  | .s0 => false
  | .s1 => false
  | .s2 => false
  | .h3 => false
  | .n3 => false
  | .n4 => false
  | .n5 => false
  | .n6 => false
  | _ => true

/-- The responses a call has written by a stage. -/
def Stage.responses (item_id : String) (item : ItemRow) (winningBid : BidRow) :
    Stage → List Response
  | .h8 => [closed item_id item winningBid]
  | .h9 => [closed item_id item winningBid]
  | .n5 => [notEligible]
  | .n6 => [notEligible]
  | .b6 => [noBidsFound]
  | .b7 => [noBidsFound]
  | _ => []

/-- Whether the `COMMIT` of the session has succeeded. -/
def Session.committed (c : Session) : Bool :=
  c.sent.any fun e =>
    match e.1 with
    | .commit => e.2
    | _ => false

/-- Whether the item lookup of the session has answered. -/
def Session.lookedUpItem (c : Session) : Bool :=
  c.sent.any fun e =>
    match e.1 with
    | .itemQuery _ => e.2
    | _ => false

/-- Whether the bid lookup of the session has answered. -/
def Session.lookedUpBids (c : Session) : Bool :=
  c.sent.any fun e =>
    match e.1 with
    | .bidQuery _ => e.2
    | _ => false

/-- Two calls of `closeBidding` for the same `item_id`, the first at time
`now1`, the second at `now2`, interleaved by `sched` on store `s`: the
committed store and the two requests after the schedule. -/
def twoCalls (sched : List Bool) (s : Store) (item_id : String) (now1 now2 : Nat) :
    Store × Request × Request :=
  interleave sched s (Request.start item_id now1) (Request.start item_id now2)

/-- The first (`false`) or the second (`true`) component of a pair. -/
def pickOf {α : Type u} (second : Bool) (p : α × α) : α :=
  match second with
  | false => p.1
  | true => p.2

/-- The first (`false`) or the second (`true`) of the two requests. -/
def theCall (second : Bool) (out : Store × Request × Request) : Request :=
  pickOf second out.2

/-- What the store is once a call for the item has committed: both lookups
find nothing, every item carrying `item_id` is sold to `recycler_id`, and no
bid is left on the internal id. -/
def Closed (item_id : String) (id recycler_id : Nat) (t : Store) : Prop :=
  selectItem item_id t = [] ∧ selectBid id t = [] ∧
  (∀ it ∈ t.items, it.unique_id = item_id →
    it.status = "sold" ∧ it.coordinator_id = some recycler_id) ∧
  ∀ b ∈ t.bids, b.ewaste_item_id ≠ id

/-- How the committed store stands to the stages of the two calls: it is the
store `s` they started on until one of them has committed, and closed for the
item from then on. -/
def StoreAt (s : Store) (item_id : String) (id recycler_id : Nat) (t : Store)
    (a b : Stage) : Prop :=
  (a.committed = false → b.committed = false → t = s) ∧
  (a.committed = true ∨ b.committed = true → Closed item_id id recycler_id t)

/-! ## Example stores -/

/-- A store for examples: item `X1` is available with pending bids of 100
(recycler A) and 250 (recycler B) and an accepted bid of 900; item `X2` is
available without bids; item `X3` is sold and keeps an accepted bid. -/
def demoStore : Store :=
  { items :=
      [{ id := 1, unique_id := "X1", type := "laptop", category := "it", serial_no := "S1",
         dept := "CS", status := "available", coordinator_id := none,
         created_at := 1, updated_at := 1 },
       { id := 2, unique_id := "X2", type := "monitor", category := "it", serial_no := "S2",
         dept := "EE", status := "available", coordinator_id := none,
         created_at := 2, updated_at := 2 },
       { id := 3, unique_id := "X3", type := "printer", category := "it", serial_no := "S3",
         dept := "CS", status := "sold", coordinator_id := some 10,
         created_at := 3, updated_at := 4 }],
    bids :=
      [{ id := 1, ewaste_item_id := 1, recycler_id := 10, bid_amount := 100, status := "pending" },
       { id := 2, ewaste_item_id := 1, recycler_id := 11, bid_amount := 250, status := "pending" },
       { id := 3, ewaste_item_id := 3, recycler_id := 10, bid_amount := 70, status := "accepted" },
       { id := 4, ewaste_item_id := 1, recycler_id := 10, bid_amount := 900, status := "accepted" }],
    recyclers := [{ id := 10, company_name := "A" }, { id := 11, company_name := "B" }] }

/-- The row the item query returns for `X1` on `demoStore`. -/
def demoItemRow : ItemRow :=
  { id := 1, unique_id := "X1", type := "laptop", serial_no := "S1" }

/-- The row the bid query returns for item 1 on `demoStore`. -/
def demoBidRow : BidRow :=
  { id := 2, ewaste_item_id := 1, bid_amount := 250, status := "pending",
    company_name := "B", recycler_id := 11 }

/-! ## Facts about the statements -/

theorem mem_insertDesc (y r : BidRow) (l : List BidRow) :
    y ∈ insertDesc r l ↔ y = r ∨ y ∈ l := by
  induction l with
  | nil => simp [insertDesc]
  | cons x xs ih =>
    unfold insertDesc
    split
    · simp
    · simp only [List.mem_cons, ih]
      tauto

theorem mem_orderByAmountDesc (y : BidRow) (l : List BidRow) :
    y ∈ orderByAmountDesc l ↔ y ∈ l := by
  induction l with
  | nil => simp [orderByAmountDesc]
  | cons x xs ih => simp [orderByAmountDesc, mem_insertDesc, ih]

theorem insertDesc_sorted (r : BidRow) (l : List BidRow)
    (h : l.Pairwise fun a b => b.bid_amount ≤ a.bid_amount) :
    (insertDesc r l).Pairwise fun a b => b.bid_amount ≤ a.bid_amount := by
  induction l with
  | nil => simp [insertDesc]
  | cons x xs ih =>
    rw [List.pairwise_cons] at h
    unfold insertDesc
    split
    · rename_i hx
      refine List.pairwise_cons.2 ⟨?_, List.pairwise_cons.2 h⟩
      intro y hy
      rcases List.mem_cons.1 hy with rfl | hy
      · exact hx
      · exact le_trans (h.1 y hy) hx
    · rename_i hx
      refine List.pairwise_cons.2 ⟨?_, ih h.2⟩
      intro y hy
      rcases (mem_insertDesc y r xs).1 hy with rfl | hy
      · exact le_of_lt (not_le.1 hx)
      · exact h.1 y hy

theorem orderByAmountDesc_sorted (l : List BidRow) :
    (orderByAmountDesc l).Pairwise fun a b => b.bid_amount ≤ a.bid_amount := by
  induction l with
  | nil => simp [orderByAmountDesc]
  | cons x xs ih => exact insertDesc_sorted x _ ih

/-- The first row of `ORDER BY bid_amount DESC` is a row of the input and no
row of the input has a larger amount. -/
theorem orderByAmountDesc_head (l : List BidRow) (x : BidRow) (xs : List BidRow)
    (h : orderByAmountDesc l = x :: xs) :
    x ∈ l ∧ ∀ y ∈ l, y.bid_amount ≤ x.bid_amount := by
  have hs := orderByAmountDesc_sorted l
  rw [h, List.pairwise_cons] at hs
  have hm : ∀ y, y ∈ l ↔ y = x ∨ y ∈ xs := by
    intro y
    rw [← mem_orderByAmountDesc y l, h, List.mem_cons]
  refine ⟨(hm x).2 (Or.inl rfl), ?_⟩
  intro y hy
  rcases (hm y).1 hy with rfl | hy
  · exact le_refl _
  · exact hs.1 y hy

theorem orderByAmountDesc_eq_nil (l : List BidRow) (h : orderByAmountDesc l = []) : l = [] := by
  cases l with
  | nil => rfl
  | cons x xs =>
    have := (mem_orderByAmountDesc x (x :: xs)).2 (List.mem_cons_self _ _)
    rw [h] at this
    exact absurd this (List.not_mem_nil _)

/-- A pair is a row of the join exactly when the bid and the recycler are in
their tables and the bid names the recycler. -/
theorem mem_joinBidsRecyclers (s : Store) (b : Bid) (r : Recycler) :
    (b, r) ∈ joinBidsRecyclers s ↔ b ∈ s.bids ∧ r ∈ s.recyclers ∧ b.recycler_id = r.id := by
  simp only [joinBidsRecyclers, List.mem_flatMap, List.mem_map, List.mem_filter, beq_iff_eq,
    Prod.mk.injEq]
  constructor
  · rintro ⟨b', hb', r', ⟨hr', hid⟩, rfl, rfl⟩
    exact ⟨hb', hr', hid⟩
  · rintro ⟨hb, hr, hid⟩
    exact ⟨b, hb, r, ⟨hr, hid⟩, rfl, rfl⟩

/-- What the item query returns first: a row of an item that is in the table,
carries the id asked for and is `available`. -/
theorem selectItem_cons (item_id : String) (s : Store) (row : ItemRow) (rest : List ItemRow)
    (h : selectItem item_id s = row :: rest) :
    ∃ it ∈ s.items, it.unique_id = item_id ∧ it.status = "available" ∧ row = it.toRow := by
  have hm : row ∈ selectItem item_id s := by rw [h]; exact List.mem_cons_self _ _
  simp only [selectItem, List.mem_map, List.mem_filter, Bool.and_eq_true, beq_iff_eq] at hm
  obtain ⟨it, ⟨hit, hid, hst⟩, rfl⟩ := hm
  exact ⟨it, hit, hid, hst, rfl⟩

/-- The item query returns nothing exactly when no item carries the id and is
`available`. -/
theorem selectItem_eq_nil (item_id : String) (s : Store) :
    selectItem item_id s = [] ↔
      ∀ it ∈ s.items, ¬ (it.unique_id = item_id ∧ it.status = "available") := by
  simp [selectItem, List.filter_eq_nil_iff]

/-- What the bid query returns: the joined row of a pending bid on the item
whose recycler exists, with an amount no smaller than that of any other such
bid. -/
theorem selectBid_cons (id : Nat) (s : Store) (w : BidRow) (rest : List BidRow)
    (h : selectBid id s = w :: rest) :
    ∃ b ∈ s.bids, ∃ r ∈ s.recyclers,
      b.recycler_id = r.id ∧ b.ewaste_item_id = id ∧ b.status = "pending" ∧
      w = toBidRow (b, r) ∧
      ∀ b' ∈ s.bids, b'.ewaste_item_id = id → b'.status = "pending" →
        (∃ r' ∈ s.recyclers, r'.id = b'.recycler_id) → b'.bid_amount ≤ b.bid_amount := by
  unfold selectBid at h
  generalize hl : ((joinBidsRecyclers s).filter fun br =>
        br.1.ewaste_item_id == id && br.1.status == "pending").map toBidRow = l at h
  cases hs : orderByAmountDesc l with
  | nil => rw [hs] at h; simp at h
  | cons x xs =>
    rw [hs] at h
    simp only [List.take_succ_cons, List.take_zero, List.cons.injEq] at h
    obtain ⟨rfl, -⟩ := h
    obtain ⟨hx, hmax⟩ := orderByAmountDesc_head l x xs hs
    rw [← hl] at hx
    simp only [List.mem_map, List.mem_filter, Bool.and_eq_true, beq_iff_eq, Prod.exists] at hx
    obtain ⟨b, r, ⟨hj, hid, hst⟩, rfl⟩ := hx
    obtain ⟨hb, hr, hbr⟩ := (mem_joinBidsRecyclers s b r).1 hj
    refine ⟨b, hb, r, hr, hbr, hid, hst, rfl, ?_⟩
    intro b' hb' hid' hst' ⟨r', hr', hbr'⟩
    have hmem : toBidRow (b', r') ∈ l := by
      rw [← hl]
      simp only [List.mem_map, List.mem_filter, Bool.and_eq_true, beq_iff_eq, Prod.exists]
      exact ⟨b', r', ⟨(mem_joinBidsRecyclers s b' r').2 ⟨hb', hr', hbr'.symm⟩, hid', hst'⟩, rfl⟩
    exact hmax _ hmem

/-- The bid query returns at most one row. -/
theorem selectBid_length (id : Nat) (s : Store) : (selectBid id s).length ≤ 1 := by
  simp [selectBid, List.length_take]

/-- The bid query returns nothing exactly when no pending bid on the item has
its recycler in the store. -/
theorem selectBid_eq_nil (id : Nat) (s : Store) :
    selectBid id s = [] ↔
      ∀ b ∈ s.bids, b.ewaste_item_id = id → b.status = "pending" →
        ¬ ∃ r ∈ s.recyclers, r.id = b.recycler_id := by
  constructor
  · intro h b hb hid hst ⟨r, hr, hbr⟩
    unfold selectBid at h
    have hmem : toBidRow (b, r) ∈ ((joinBidsRecyclers s).filter fun br =>
        br.1.ewaste_item_id == id && br.1.status == "pending").map toBidRow := by
      simp only [List.mem_map, List.mem_filter, Bool.and_eq_true, beq_iff_eq, Prod.exists]
      exact ⟨b, r, ⟨(mem_joinBidsRecyclers s b r).2 ⟨hb, hr, hbr.symm⟩, hid, hst⟩, rfl⟩
    generalize ((joinBidsRecyclers s).filter fun br =>
        br.1.ewaste_item_id == id && br.1.status == "pending").map toBidRow = l at h hmem
    cases hs : orderByAmountDesc l with
    | nil =>
      rw [orderByAmountDesc_eq_nil l hs] at hmem
      exact absurd hmem (List.not_mem_nil _)
    | cons x xs => rw [hs] at h; simp at h
  · intro h
    cases hs : selectBid id s with
    | nil => rfl
    | cons w rest =>
      obtain ⟨b, hb, r, hr, hbr, hid, hst, -, -⟩ := selectBid_cons id s w rest hs
      exact absurd ⟨r, hr, hbr.symm⟩ (h b hb hid hst)

/-! ## The paths of the handler -/

/-- The `catch` block leaves the committed store as it found it. -/
theorem run_catchBlock_store (faults : Nat → Option String) (e : String) (s : Store)
    (c : Session) : (run faults (catchBlock e) s c).1 = s := by
  cases h : faults c.sent.length <;> simp [catchBlock, run, perform, Await.exec, h]

/-- The `catch` block writes no response but, at most, the 500 one. -/
theorem run_catchBlock_responses (faults : Nat → Option String) (e : String) (s : Store)
    (c : Session) :
    (run faults (catchBlock e) s c).2.responses = c.responses ∨
      (run faults (catchBlock e) s c).2.responses = c.responses ++ [internalFailure e] := by
  cases h : faults c.sent.length <;> simp [catchBlock, run, perform, Await.exec, h]

/-- Whatever the store does to each operation, a call either leaves the
committed store alone and reports no success, or went through every step: the
item lookup and the bid lookup returned a row, the store holds the update and
the delete, and the one response is the success body. -/
theorem closeBiddingOn_cases (faults : Nat → Option String) (item_id : String) (now : Nat)
    (s : Store) :
    ((closeBiddingOn faults item_id now s).1 = s ∧
      ∀ r ∈ (closeBiddingOn faults item_id now s).2.responses, r.success = false) ∨
    ∃ item items w ws, selectItem item_id s = item :: items ∧ selectBid item.id s = w :: ws ∧
      closeBiddingOn faults item_id now s =
        (deleteBids item.id (updateItem w.recycler_id item_id now s),
         { now := now, tx := none,
           sent := [(.connect, true), (.begin, true), (.itemQuery item_id, true),
                    (.bidQuery item.id, true),
                    (.updateItemQuery w.recycler_id item_id, true),
                    (.deleteBidsQuery item.id, true), (.commit, true)],
           responses := [closed item_id item w], released := true, thrown := none }) := by
  have key : ∀ (e : String) (c : Session), c.responses = [] →
      (run faults (catchBlock e) s c).1 = s ∧
        ∀ r ∈ (run faults (catchBlock e) s c).2.responses, r.success = false := by
    intro e c hc
    refine ⟨run_catchBlock_store faults e s c, ?_⟩
    intro r hmem
    rcases run_catchBlock_responses faults e s c with h | h
    · rw [h, hc] at hmem; simp at hmem
    · rw [h, hc] at hmem
      simp only [List.nil_append, List.mem_singleton] at hmem
      rw [hmem]
      rfl
  unfold closeBiddingOn closeBidding
  simp only [run, perform, Session.init, List.length_nil]
  cases h0 : faults 0 with
  | some e => simp [run]
  | none =>
  simp only [h0, Await.exec, Await.stmt, List.nil_append, List.cons_append, List.length_cons,
    List.length_nil, Nat.zero_add, Nat.reduceAdd, run, perform, view, List.foldl,
    Option.getD, Write.apply]
  cases h1 : faults 1 with
  | some e =>
    exact Or.inl (key _ _ rfl)
  | none =>
  simp only [h1, Await.exec, Await.stmt, List.nil_append, List.cons_append, List.length_cons,
    List.length_nil, Nat.zero_add, Nat.reduceAdd, run, perform, view, List.foldl,
    Option.getD, Write.apply]
  cases h2 : faults 2 with
  | some e =>
    exact Or.inl (key _ _ rfl)
  | none =>
    simp only [h2, Await.exec, Await.stmt, List.nil_append, List.cons_append, List.length_cons,
    List.length_nil, Nat.zero_add, Nat.reduceAdd, run, perform, view, List.foldl,
    Option.getD, Write.apply]
    cases hi : selectItem item_id s with
    | nil =>
      simp only [hi, Await.exec, Await.stmt, List.nil_append, List.cons_append, List.length_cons,
    List.length_nil, Nat.zero_add, Nat.reduceAdd, run, perform, view, List.foldl,
    Option.getD, Write.apply]
      cases h3 : faults 3 with
      | some e =>
        exact Or.inl (key _ _ rfl)
      | none =>
        simp [run, notEligible]
    | cons item items =>
      simp only [hi, Await.exec, Await.stmt, List.nil_append, List.cons_append, List.length_cons,
    List.length_nil, Nat.zero_add, Nat.reduceAdd, run, perform, view, List.foldl,
    Option.getD, Write.apply]
      cases h3 : faults 3 with
      | some e =>
        exact Or.inl (key _ _ rfl)
      | none =>
        simp only [h3, Await.exec, Await.stmt, List.nil_append, List.cons_append, List.length_cons,
    List.length_nil, Nat.zero_add, Nat.reduceAdd, run, perform, view, List.foldl,
    Option.getD, Write.apply]
        cases hb : selectBid item.id s with
        | nil =>
          simp only [hb, Await.exec, Await.stmt, List.nil_append, List.cons_append, List.length_cons,
    List.length_nil, Nat.zero_add, Nat.reduceAdd, run, perform, view, List.foldl,
    Option.getD, Write.apply]
          cases h4 : faults 4 with
          | some e =>
            exact Or.inl (key _ _ rfl)
          | none =>
            simp [run, noBidsFound]
        | cons w ws =>
          simp only [hb, Await.exec, Await.stmt, List.nil_append, List.cons_append, List.length_cons,
    List.length_nil, Nat.zero_add, Nat.reduceAdd, run, perform, view, List.foldl,
    Option.getD, Write.apply]
          cases h4 : faults 4 with
          | some e =>
            exact Or.inl (key _ _ rfl)
          | none =>
            simp only [h4, Await.exec, Await.stmt, List.nil_append, List.cons_append, List.length_cons,
    List.length_nil, Nat.zero_add, Nat.reduceAdd, run, perform, view, List.foldl,
    Option.getD, Write.apply]
            cases h5 : faults 5 with
            | some e =>
              exact Or.inl (key _ _ rfl)
            | none =>
              simp only [h5, Await.exec, Await.stmt, List.nil_append, List.cons_append, List.length_cons,
    List.length_nil, Nat.zero_add, Nat.reduceAdd, run, perform, view, List.foldl,
    Option.getD, Write.apply]
              cases h6 : faults 6 with
              | some e =>
                exact Or.inl (key _ _ rfl)
              | none =>
                simp only [h6, Await.exec, Await.stmt, List.nil_append, List.cons_append, List.length_cons,
    List.length_nil, Nat.zero_add, Nat.reduceAdd, run, perform, view, List.foldl,
    Option.getD, Write.apply]
                exact Or.inr ⟨item, items, w, ws, rfl, hb, rfl⟩

/-- A call that answers with success went through every step. -/
theorem closeBiddingOn_success (faults : Nat → Option String) (item_id : String) (now : Nat)
    (s : Store) (r : Response)
    (hr : r ∈ (closeBiddingOn faults item_id now s).2.responses) (hs : r.success = true) :
    ∃ item items w ws, selectItem item_id s = item :: items ∧ selectBid item.id s = w :: ws ∧
      closeBiddingOn faults item_id now s =
        (deleteBids item.id (updateItem w.recycler_id item_id now s),
         { now := now, tx := none,
           sent := [(.connect, true), (.begin, true), (.itemQuery item_id, true),
                    (.bidQuery item.id, true),
                    (.updateItemQuery w.recycler_id item_id, true),
                    (.deleteBidsQuery item.id, true), (.commit, true)],
           responses := [closed item_id item w], released := true, thrown := none }) := by
  rcases closeBiddingOn_cases faults item_id now s with ⟨-, h⟩ | h
  · rw [h r hr] at hs
    exact absurd hs (by decide)
  · exact h

/-! ## The committed store after a close -/

/-- The update leaves no item with the id other than sold to the recycler. -/
theorem updateItem_sold (rid : Nat) (item_id : String) (now : Nat) (s : Store) (it : Item)
    (h : it ∈ (updateItem rid item_id now s).items) (hid : it.unique_id = item_id) :
    it.status = "sold" ∧ it.coordinator_id = some rid := by
  simp only [updateItem, List.mem_map] at h
  obtain ⟨old, -, rfl⟩ := h
  by_cases ho : old.unique_id = item_id
  · simp [ho]
  · simp only [beq_iff_eq, ho, if_false] at hid

/-- The update keeps every row in place, with its internal and external id. -/
theorem updateItem_keeps (rid : Nat) (item_id : String) (now : Nat) (s : Store) (old : Item)
    (h : old ∈ s.items) :
    ∃ it ∈ (updateItem rid item_id now s).items, it.unique_id = old.unique_id ∧ it.id = old.id := by
  simp only [updateItem, List.mem_map]
  refine ⟨_, ⟨old, h, rfl⟩, ?_⟩
  by_cases ho : old.unique_id = item_id <;> simp [ho]

/-- After the update the item query for the same id finds nothing. -/
theorem selectItem_updateItem (rid : Nat) (item_id : String) (now : Nat) (s : Store) :
    selectItem item_id (updateItem rid item_id now s) = [] := by
  rw [selectItem_eq_nil]
  rintro it hit ⟨hid, hst⟩
  have := (updateItem_sold rid item_id now s it hit hid).1
  rw [this] at hst
  exact absurd hst (by decide)

/-! ## The claims -/

/-- C1 (winner selection). On a store whose bids reference existing recyclers,
whenever `closeBidding` answers with success, the `winningBid` of the response
is a pending bid on the item the lookup found: its amount is at least that of
every pending bid on that item (strictly larger than every differing amount),
and `recyclerId`, `recyclerName` and the top-level `recyclerName` are the id
and company name of the recycler that placed it. -/
theorem closeBidding_winner_is_highest_pending_bid (faults : Nat → Option String)
    (item_id : String) (now : Nat) (s : Store) (r : Response)
    (hfk : s.BidsReferenceRecyclers)
    (hr : r ∈ (closeBiddingOn faults item_id now s).2.responses) (hs : r.success = true) :
    ∃ it ∈ s.items, it.unique_id = item_id ∧ it.status = "available" ∧
      ∃ b ∈ s.bids, b.ewaste_item_id = it.id ∧ b.status = "pending" ∧
        (∀ b' ∈ s.bids, b'.ewaste_item_id = it.id → b'.status = "pending" →
          b'.bid_amount ≤ b.bid_amount ∧
            (b'.bid_amount ≠ b.bid_amount → b'.bid_amount < b.bid_amount)) ∧
        ∃ rc ∈ s.recyclers, rc.id = b.recycler_id ∧
          r.winningBid = some { amount := b.bid_amount, recyclerName := rc.company_name,
                                recyclerId := rc.id } ∧
          r.recyclerName = some rc.company_name := by
  obtain ⟨item, items, w, ws, hi, hb, hrun⟩ := closeBiddingOn_success faults item_id now s r hr hs
  obtain ⟨it, hit, hid, hst, rfl⟩ := selectItem_cons item_id s item items hi
  obtain ⟨b, hbm, rc, hrc, hbr, hbi, hbs, rfl, hmax⟩ := selectBid_cons it.toRow.id s w ws hb
  rw [hrun] at hr
  simp only [List.mem_singleton] at hr
  subst hr
  refine ⟨it, hit, hid, hst, b, hbm, hbi, hbs, ?_, rc, hrc, hbr.symm, rfl, rfl⟩
  intro b' hb' hbi' hbs'
  have hle := hmax b' hb' hbi' hbs' (hfk b' hb')
  exact ⟨hle, fun hne => lt_of_le_of_ne hle hne⟩

theorem closeBidding_winner_is_highest_pending_bid_witness :
    demoStore.BidsReferenceRecyclers ∧
    closed "X1" demoItemRow demoBidRow ∈ (closeBiddingOn noFaults "X1" 5 demoStore).2.responses ∧
    ∃ it ∈ demoStore.items, it.unique_id = "X1" ∧ it.status = "available" ∧
      ∃ b ∈ demoStore.bids, b.ewaste_item_id = it.id ∧ b.status = "pending" ∧
        (∀ b' ∈ demoStore.bids, b'.ewaste_item_id = it.id → b'.status = "pending" →
          b'.bid_amount ≤ b.bid_amount ∧
            (b'.bid_amount ≠ b.bid_amount → b'.bid_amount < b.bid_amount)) ∧
        ∃ rc ∈ demoStore.recyclers, rc.id = b.recycler_id ∧
          (closed "X1" demoItemRow demoBidRow).winningBid =
            some { amount := b.bid_amount, recyclerName := rc.company_name,
                   recyclerId := rc.id } ∧
          (closed "X1" demoItemRow demoBidRow).recyclerName = some rc.company_name :=
  have hfk : demoStore.BidsReferenceRecyclers := by decide
  ⟨hfk, by decide,
    closeBidding_winner_is_highest_pending_bid noFaults "X1" 5 demoStore
      (closed "X1" demoItemRow demoBidRow) hfk (by decide) (by decide)⟩

/-- C2 (coordinator assignment). On a store whose bids reference existing
recyclers, whenever `closeBidding` answers with success, the committed store
still holds the item the lookup found, and every item carrying `item_id` there
has status `sold` and, as `coordinator_id`, the recycler of a pending bid on
that item whose amount no pending bid on it exceeded before the call. -/
theorem closeBidding_assigns_coordinator (faults : Nat → Option String)
    (item_id : String) (now : Nat) (s : Store) (r : Response)
    (hfk : s.BidsReferenceRecyclers)
    (hr : r ∈ (closeBiddingOn faults item_id now s).2.responses) (hs : r.success = true) :
    ∃ it ∈ s.items, it.unique_id = item_id ∧ it.status = "available" ∧
      ∃ b ∈ s.bids, b.ewaste_item_id = it.id ∧ b.status = "pending" ∧
        (∀ b' ∈ s.bids, b'.ewaste_item_id = it.id → b'.status = "pending" →
          b'.bid_amount ≤ b.bid_amount) ∧
        (∃ it' ∈ (closeBiddingOn faults item_id now s).1.items,
          it'.unique_id = item_id ∧ it'.id = it.id) ∧
        ∀ it' ∈ (closeBiddingOn faults item_id now s).1.items, it'.unique_id = item_id →
          it'.status = "sold" ∧ it'.coordinator_id = some b.recycler_id := by
  obtain ⟨item, items, w, ws, hi, hb, hrun⟩ := closeBiddingOn_success faults item_id now s r hr hs
  obtain ⟨it, hit, hid, hst, rfl⟩ := selectItem_cons item_id s item items hi
  obtain ⟨b, hbm, rc, hrc, hbr, hbi, hbs, rfl, hmax⟩ := selectBid_cons it.toRow.id s w ws hb
  rw [hrun]
  refine ⟨it, hit, hid, hst, b, hbm, hbi, hbs, ?_, ?_, ?_⟩
  · intro b' hb' hbi' hbs'
    exact hmax b' hb' hbi' hbs' (hfk b' hb')
  · obtain ⟨it', hit', hu, hi'⟩ := updateItem_keeps (toBidRow (b, rc)).recycler_id item_id now s it hit
    exact ⟨it', hit', hu.trans hid, hi'⟩
  · intro it' hit' hid'
    have := updateItem_sold (toBidRow (b, rc)).recycler_id item_id now s it' hit' hid'
    simpa [toBidRow, hbr] using this

theorem closeBidding_assigns_coordinator_witness :
    demoStore.BidsReferenceRecyclers ∧
    closed "X1" demoItemRow demoBidRow ∈ (closeBiddingOn noFaults "X1" 5 demoStore).2.responses ∧
    ∃ it ∈ demoStore.items, it.unique_id = "X1" ∧ it.status = "available" ∧
      ∃ b ∈ demoStore.bids, b.ewaste_item_id = it.id ∧ b.status = "pending" ∧
        (∀ b' ∈ demoStore.bids, b'.ewaste_item_id = it.id → b'.status = "pending" →
          b'.bid_amount ≤ b.bid_amount) ∧
        (∃ it' ∈ (closeBiddingOn noFaults "X1" 5 demoStore).1.items,
          it'.unique_id = "X1" ∧ it'.id = it.id) ∧
        ∀ it' ∈ (closeBiddingOn noFaults "X1" 5 demoStore).1.items, it'.unique_id = "X1" →
          it'.status = "sold" ∧ it'.coordinator_id = some b.recycler_id :=
  have hfk : demoStore.BidsReferenceRecyclers := by decide
  ⟨hfk, by decide,
    closeBidding_assigns_coordinator noFaults "X1" 5 demoStore
      (closed "X1" demoItemRow demoBidRow) hfk (by decide) (by decide)⟩

/-- C3 (destructive bid purge). Whenever `closeBidding` answers with success,
the committed store holds no bid row whose `ewaste_item_id` is the internal id
of the item the lookup returned, whatever the status of the bid. -/
theorem closeBidding_purges_bids (faults : Nat → Option String)
    (item_id : String) (now : Nat) (s : Store) (r : Response)
    (hr : r ∈ (closeBiddingOn faults item_id now s).2.responses) (hs : r.success = true) :
    ∃ it ∈ s.items, it.unique_id = item_id ∧ it.status = "available" ∧
      (selectItem item_id s).head? = some it.toRow ∧
      ∀ b ∈ (closeBiddingOn faults item_id now s).1.bids, b.ewaste_item_id ≠ it.id := by
  obtain ⟨item, items, w, ws, hi, -, hrun⟩ := closeBiddingOn_success faults item_id now s r hr hs
  obtain ⟨it, hit, hid, hst, rfl⟩ := selectItem_cons item_id s item items hi
  rw [hrun, hi]
  refine ⟨it, hit, hid, hst, rfl, ?_⟩
  intro b hb
  simp only [deleteBids, List.mem_filter, Bool.not_eq_true', beq_eq_false_iff_ne] at hb
  exact hb.2

theorem closeBidding_purges_bids_witness :
    closed "X1" demoItemRow demoBidRow ∈ (closeBiddingOn noFaults "X1" 5 demoStore).2.responses ∧
    ∃ it ∈ demoStore.items, it.unique_id = "X1" ∧ it.status = "available" ∧
      (selectItem "X1" demoStore).head? = some it.toRow ∧
      ∀ b ∈ (closeBiddingOn noFaults "X1" 5 demoStore).1.bids, b.ewaste_item_id ≠ it.id :=
  ⟨by decide,
    closeBidding_purges_bids noFaults "X1" 5 demoStore
      (closed "X1" demoItemRow demoBidRow) (by decide) (by decide)⟩

/-- With no eligible item and no failure the handler looks the item up, rolls
back, answers 404 and releases the connection; the store is not touched. -/
theorem closeBiddingOn_notEligible (item_id : String) (now : Nat) (s : Store)
    (h : selectItem item_id s = []) :
    closeBiddingOn noFaults item_id now s =
      (s, { now := now, tx := none,
            sent := [(.connect, true), (.begin, true), (.itemQuery item_id, true),
                     (.rollback, true)],
            responses := [notEligible], released := true, thrown := none }) := by
  simp [closeBiddingOn, closeBidding, run, perform, Await.exec, Await.stmt, Session.init,
    noFaults, view, h]

/-- C4 (ItemNotEligible). When no item carries `item_id` together with status
`available`, `closeBidding` answers once, with HTTP 404 and `success: false`,
after rolling back, and the committed store (items, bids, recyclers) is what
it was before the call. -/
theorem closeBidding_not_eligible (item_id : String) (now : Nat) (s : Store)
    (h : ∀ it ∈ s.items, ¬ (it.unique_id = item_id ∧ it.status = "available")) :
    (closeBiddingOn noFaults item_id now s).2.responses = [notEligible] ∧
      notEligible.status = 404 ∧ notEligible.success = false ∧
      (closeBiddingOn noFaults item_id now s).2.sent.getLast? = some (.rollback, true) ∧
      (closeBiddingOn noFaults item_id now s).1 = s := by
  rw [closeBiddingOn_notEligible item_id now s ((selectItem_eq_nil item_id s).2 h)]
  exact ⟨rfl, rfl, rfl, rfl, rfl⟩

theorem closeBidding_not_eligible_witness :
    (∀ it ∈ demoStore.items, ¬ (it.unique_id = "X3" ∧ it.status = "available")) ∧
    (∀ it ∈ demoStore.items, ¬ (it.unique_id = "X9" ∧ it.status = "available")) ∧
    ((closeBiddingOn noFaults "X3" 5 demoStore).2.responses = [notEligible] ∧
      notEligible.status = 404 ∧ notEligible.success = false ∧
      (closeBiddingOn noFaults "X3" 5 demoStore).2.sent.getLast? = some (.rollback, true) ∧
      (closeBiddingOn noFaults "X3" 5 demoStore).1 = demoStore) ∧
    ((closeBiddingOn noFaults "X9" 5 demoStore).2.responses = [notEligible] ∧
      notEligible.status = 404 ∧ notEligible.success = false ∧
      (closeBiddingOn noFaults "X9" 5 demoStore).2.sent.getLast? = some (.rollback, true) ∧
      (closeBiddingOn noFaults "X9" 5 demoStore).1 = demoStore) :=
  ⟨by decide, by decide,
    closeBidding_not_eligible "X3" 5 demoStore (by decide),
    closeBidding_not_eligible "X9" 5 demoStore (by decide)⟩

/-- C5 (NoBidsFound). When `item_id` names an available item and no available
item of that id has a pending bid, `closeBidding` answers once, with HTTP 400
and `success: false` (a status other than the 404 of an ineligible item),
after rolling back, and the committed store is what it was before the call:
the item row, its status and coordinator included, and every bid row. -/
theorem closeBidding_no_bids (item_id : String) (now : Nat) (s : Store)
    (hex : ∃ it ∈ s.items, it.unique_id = item_id ∧ it.status = "available")
    (hnone : ∀ it ∈ s.items, it.unique_id = item_id → it.status = "available" →
      ∀ b ∈ s.bids, b.ewaste_item_id = it.id → b.status ≠ "pending") :
    (closeBiddingOn noFaults item_id now s).2.responses = [noBidsFound] ∧
      noBidsFound.status = 400 ∧ noBidsFound.success = false ∧
      noBidsFound.status ≠ notEligible.status ∧
      (closeBiddingOn noFaults item_id now s).2.sent.getLast? = some (.rollback, true) ∧
      (closeBiddingOn noFaults item_id now s).1 = s := by
  cases hi : selectItem item_id s with
  | nil =>
    obtain ⟨it, hit, hid, hst⟩ := hex
    exact absurd ⟨hid, hst⟩ ((selectItem_eq_nil item_id s).1 hi it hit)
  | cons item items =>
    obtain ⟨it, hit, hid, hst, rfl⟩ := selectItem_cons item_id s item items hi
    have hb : selectBid it.toRow.id s = [] := by
      rw [selectBid_eq_nil]
      intro b hb hbi hbs
      exact absurd hbs (hnone it hit hid hst b hb hbi)
    simp [closeBiddingOn, closeBidding, run, perform, Await.exec, Await.stmt, Session.init,
      noFaults, view, hi, hb, noBidsFound, notEligible]

theorem closeBidding_no_bids_witness :
    (∃ it ∈ demoStore.items, it.unique_id = "X2" ∧ it.status = "available") ∧
    (∀ it ∈ demoStore.items, it.unique_id = "X2" → it.status = "available" →
      ∀ b ∈ demoStore.bids, b.ewaste_item_id = it.id → b.status ≠ "pending") ∧
    (closeBiddingOn noFaults "X2" 5 demoStore).2.responses = [noBidsFound] ∧
      noBidsFound.status = 400 ∧ noBidsFound.success = false ∧
      noBidsFound.status ≠ notEligible.status ∧
      (closeBiddingOn noFaults "X2" 5 demoStore).2.sent.getLast? = some (.rollback, true) ∧
      (closeBiddingOn noFaults "X2" 5 demoStore).1 = demoStore :=
  ⟨by decide, by decide, closeBidding_no_bids "X2" 5 demoStore (by decide) (by decide)⟩

/-- A single failure of an operation after `connect`: the failed operation is
followed by a `ROLLBACK` and nothing else, the one response is the 500 body
with the message of the failure, the connection is released, nothing leaves
the handler, and the committed store is untouched. -/
theorem closeBiddingOn_faultAt (item_id : String) (now : Nat) (s : Store) (k : Nat)
    (e : String) (h1 : 1 ≤ k) (h6 : k ≤ 6)
    (hk : k < (closeBiddingOn (faultAt k e) item_id now s).2.sent.length) :
    (closeBiddingOn (faultAt k e) item_id now s).2.responses = [internalFailure e] ∧
      (∃ st, (closeBiddingOn (faultAt k e) item_id now s).2.sent.drop k =
        [(st, false), (.rollback, true)]) ∧
      (closeBiddingOn (faultAt k e) item_id now s).2.released = true ∧
      (closeBiddingOn (faultAt k e) item_id now s).2.thrown = none ∧
      (closeBiddingOn (faultAt k e) item_id now s).1 = s := by
  revert hk
  interval_cases k <;> cases hi : selectItem item_id s <;>
    simp [closeBiddingOn, closeBidding, catchBlock, run, perform, Await.exec, Await.stmt,
      Session.init, faultAt, view, hi]
  all_goals
    rename_i item items
    cases hb : selectBid item.id s <;>
      simp [catchBlock, run, perform, Await.exec, Await.stmt, faultAt, view, hb]



/-- C6 (atomicity under store failure). When exactly one operation after
`connect` fails (`BEGIN`, the item lookup, the bid lookup, the item update, the
bid delete, `COMMIT`, or the rollback of an early exit), the failed operation
is followed by a `ROLLBACK`, the one response is HTTP 500 with
`success: false`, and the committed store equals the store before the call.
And whatever the store does to each operation (`faults`), a call ends either
with the committed store unchanged, or with both the update and the delete
applied and the success body as its one response. -/
theorem closeBidding_atomic_under_store_error (item_id : String) (now : Nat) (s : Store)
    (k : Nat) (e : String) (faults : Nat → Option String) (h1 : 1 ≤ k) (h6 : k ≤ 6)
    (hk : k < (closeBiddingOn (faultAt k e) item_id now s).2.sent.length) :
    ((closeBiddingOn (faultAt k e) item_id now s).2.responses = [internalFailure e] ∧
      (internalFailure e).status = 500 ∧ (internalFailure e).success = false ∧
      (∃ st, (closeBiddingOn (faultAt k e) item_id now s).2.sent.drop k =
        [(st, false), (.rollback, true)]) ∧
      (closeBiddingOn (faultAt k e) item_id now s).1 = s) ∧
    ((closeBiddingOn faults item_id now s).1 = s ∨
      ∃ item items w ws, selectItem item_id s = item :: items ∧ selectBid item.id s = w :: ws ∧
        (closeBiddingOn faults item_id now s).1 =
          deleteBids item.id (updateItem w.recycler_id item_id now s) ∧
        (closeBiddingOn faults item_id now s).2.responses = [closed item_id item w]) := by
  obtain ⟨hresp, hsent, -, -, hstore⟩ := closeBiddingOn_faultAt item_id now s k e h1 h6 hk
  refine ⟨⟨hresp, rfl, rfl, hsent, hstore⟩, ?_⟩
  rcases closeBiddingOn_cases faults item_id now s with ⟨h, -⟩ | ⟨item, items, w, ws, hi, hb, h⟩
  · exact Or.inl h
  · exact Or.inr ⟨item, items, w, ws, hi, hb, by rw [h], by rw [h]⟩

theorem closeBidding_atomic_under_store_error_witness :
    5 < (closeBiddingOn (faultAt 5 "deadlock detected") "X1" 9 demoStore).2.sent.length ∧
    ((closeBiddingOn (faultAt 5 "deadlock detected") "X1" 9 demoStore).2.responses =
        [internalFailure "deadlock detected"] ∧
      (internalFailure "deadlock detected").status = 500 ∧
      (internalFailure "deadlock detected").success = false ∧
      (∃ st, (closeBiddingOn (faultAt 5 "deadlock detected") "X1" 9 demoStore).2.sent.drop 5 =
        [(st, false), (.rollback, true)]) ∧
      (closeBiddingOn (faultAt 5 "deadlock detected") "X1" 9 demoStore).1 = demoStore) ∧
    ((closeBiddingOn noFaults "X1" 9 demoStore).1 = demoStore ∨
      ∃ item items w ws, selectItem "X1" demoStore = item :: items ∧
        selectBid item.id demoStore = w :: ws ∧
        (closeBiddingOn noFaults "X1" 9 demoStore).1 =
          deleteBids item.id (updateItem w.recycler_id "X1" 9 demoStore) ∧
        (closeBiddingOn noFaults "X1" 9 demoStore).2.responses = [closed "X1" item w]) :=
  ⟨by decide,
    closeBidding_atomic_under_store_error "X1" 9 demoStore 5 "deadlock detected" noFaults
      (by decide) (by decide) (by decide)⟩

/-- On `demoStore` a failure at positions 1 to 6 of the call for `X1` hits, in
turn, `BEGIN`, the item lookup, the bid lookup, the item update, the bid delete
and `COMMIT`; each is followed by a `ROLLBACK` and leaves the store as it was. -/
theorem closeBidding_fault_steps :
    ∀ p ∈ [(1, Stmt.begin), (2, Stmt.itemQuery "X1"), (3, Stmt.bidQuery 1),
           (4, Stmt.updateItemQuery 11 "X1"), (5, Stmt.deleteBidsQuery 1), (6, Stmt.commit)],
      (closeBiddingOn (faultAt p.1 "boom") "X1" 9 demoStore).2.sent.drop p.1 =
          [(p.2, false), (.rollback, true)] ∧
        (closeBiddingOn (faultAt p.1 "boom") "X1" 9 demoStore).2.responses =
          [internalFailure "boom"] ∧
        (closeBiddingOn (faultAt p.1 "boom") "X1" 9 demoStore).1 = demoStore := by
  decide

/-- C7 (idempotent rejection). After a call of `closeBidding` that answered
with success, a second call with the same `item_id` on the resulting store
answers with HTTP 404 and leaves the store as the first call left it: the item
is sold and its coordinator is the winner the first response names. -/
theorem closeBidding_second_call_rejected (faults : Nat → Option String) (item_id : String)
    (now now2 : Nat) (s : Store) (r : Response)
    (hr : r ∈ (closeBiddingOn faults item_id now s).2.responses) (hs : r.success = true) :
    (closeBiddingOn noFaults item_id now2 (closeBiddingOn faults item_id now s).1).2.responses =
        [notEligible] ∧
      notEligible.status = 404 ∧
      (closeBiddingOn noFaults item_id now2 (closeBiddingOn faults item_id now s).1).1 =
        (closeBiddingOn faults item_id now s).1 ∧
      ∃ wb, r.winningBid = some wb ∧
        (∃ it ∈ (closeBiddingOn noFaults item_id now2
            (closeBiddingOn faults item_id now s).1).1.items, it.unique_id = item_id) ∧
        ∀ it ∈ (closeBiddingOn noFaults item_id now2
            (closeBiddingOn faults item_id now s).1).1.items,
          it.unique_id = item_id → it.status = "sold" ∧ it.coordinator_id = some wb.recyclerId := by
  obtain ⟨item, items, w, ws, hi, hb, hrun⟩ := closeBiddingOn_success faults item_id now s r hr hs
  have hnone : ∀ it ∈ (closeBiddingOn faults item_id now s).1.items,
      ¬ (it.unique_id = item_id ∧ it.status = "available") := by
    rw [hrun]
    exact (selectItem_eq_nil item_id _).1 (selectItem_updateItem w.recycler_id item_id now s)
  have h2 := closeBiddingOn_notEligible item_id now2 (closeBiddingOn faults item_id now s).1
    ((selectItem_eq_nil item_id _).2 hnone)
  rw [h2]
  refine ⟨rfl, rfl, rfl, ?_⟩
  rw [hrun] at hr ⊢
  simp only [List.mem_singleton] at hr
  subst hr
  refine ⟨_, rfl, ?_, ?_⟩
  · obtain ⟨it, hit, hid, -, -⟩ := selectItem_cons item_id s item items hi
    obtain ⟨it', hit', hu, -⟩ := updateItem_keeps w.recycler_id item_id now s it hit
    exact ⟨it', hit', hu.trans hid⟩
  · intro it hit hid
    exact updateItem_sold w.recycler_id item_id now s it hit hid

theorem closeBidding_second_call_rejected_witness :
    closed "X1" demoItemRow demoBidRow ∈ (closeBiddingOn noFaults "X1" 5 demoStore).2.responses ∧
    ((closeBiddingOn noFaults "X1" 8 (closeBiddingOn noFaults "X1" 5 demoStore).1).2.responses =
        [notEligible] ∧
      notEligible.status = 404 ∧
      (closeBiddingOn noFaults "X1" 8 (closeBiddingOn noFaults "X1" 5 demoStore).1).1 =
        (closeBiddingOn noFaults "X1" 5 demoStore).1 ∧
      ∃ wb, (closed "X1" demoItemRow demoBidRow).winningBid = some wb ∧
        (∃ it ∈ (closeBiddingOn noFaults "X1" 8
            (closeBiddingOn noFaults "X1" 5 demoStore).1).1.items, it.unique_id = "X1") ∧
        ∀ it ∈ (closeBiddingOn noFaults "X1" 8
            (closeBiddingOn noFaults "X1" 5 demoStore).1).1.items,
          it.unique_id = "X1" → it.status = "sold" ∧ it.coordinator_id = some wb.recyclerId) :=
  ⟨by decide,
    closeBidding_second_call_rejected noFaults "X1" 5 8 demoStore
      (closed "X1" demoItemRow demoBidRow) (by decide) (by decide)⟩

/-- C10 (frame of a successful close). On a store where `unique_id` identifies
at most one item, whenever `closeBidding` answers with success there is one
item `it` carrying `item_id`; row by row, every other item of the committed
store equals the row before, the row of `it` differs from it at most in
`status`, `coordinator_id` and `updated_at`; the bids are the bids before, in
order, without those on the internal id of `it`; the recyclers are unchanged. -/
theorem closeBidding_frame (faults : Nat → Option String) (item_id : String) (now : Nat)
    (s : Store) (r : Response) (hu : s.UniqueIds)
    (hr : r ∈ (closeBiddingOn faults item_id now s).2.responses) (hs : r.success = true) :
    ∃ it ∈ s.items, it.unique_id = item_id ∧
      List.Forall₂
        (fun old new =>
          (old ≠ it → new = old) ∧
          (old = it → new.id = old.id ∧ new.unique_id = old.unique_id ∧ new.type = old.type ∧
            new.category = old.category ∧ new.serial_no = old.serial_no ∧
            new.dept = old.dept ∧ new.created_at = old.created_at))
        s.items (closeBiddingOn faults item_id now s).1.items ∧
      (closeBiddingOn faults item_id now s).1.bids =
        s.bids.filter (fun b => b.ewaste_item_id != it.id) ∧
      (closeBiddingOn faults item_id now s).1.recyclers = s.recyclers := by
  obtain ⟨item, items, w, ws, hi, -, hrun⟩ := closeBiddingOn_success faults item_id now s r hr hs
  obtain ⟨it, hit, hid, -, rfl⟩ := selectItem_cons item_id s item items hi
  rw [hrun]
  refine ⟨it, hit, hid, ?_, ?_, rfl⟩
  · simp only [deleteBids, updateItem]
    rw [List.forall₂_map_right_iff, List.forall₂_same]
    intro old hold
    by_cases ho : old.unique_id = item_id
    · have hsame : old = it := by
        by_contra hne
        have hsym : Symmetric fun a b : Item => a.unique_id ≠ b.unique_id :=
          fun _ _ h => Ne.symm h
        exact List.Pairwise.forall hsym hu hold hit hne (ho.trans hid.symm)
      subst hsame
      simp [hid]
    · refine ⟨fun _ => by simp [ho], fun h => ?_⟩
      rw [h] at ho
      exact absurd hid ho
  · simp only [deleteBids, updateItem, Item.toRow]
    apply List.filter_congr
    intro b _
    simp [bne]

theorem closeBidding_frame_witness :
    demoStore.UniqueIds ∧
    closed "X1" demoItemRow demoBidRow ∈ (closeBiddingOn noFaults "X1" 5 demoStore).2.responses ∧
    ∃ it ∈ demoStore.items, it.unique_id = "X1" ∧
      List.Forall₂
        (fun old new =>
          (old ≠ it → new = old) ∧
          (old = it → new.id = old.id ∧ new.unique_id = old.unique_id ∧ new.type = old.type ∧
            new.category = old.category ∧ new.serial_no = old.serial_no ∧
            new.dept = old.dept ∧ new.created_at = old.created_at))
        demoStore.items (closeBiddingOn noFaults "X1" 5 demoStore).1.items ∧
      (closeBiddingOn noFaults "X1" 5 demoStore).1.bids =
        demoStore.bids.filter (fun b => b.ewaste_item_id != it.id) ∧
      (closeBiddingOn noFaults "X1" 5 demoStore).1.recyclers = demoStore.recyclers :=
  have hu : demoStore.UniqueIds := by decide
  ⟨hu, by decide,
    closeBidding_frame noFaults "X1" 5 demoStore (closed "X1" demoItemRow demoBidRow) hu
      (by decide) (by decide)⟩

/-! ## Two calls for the same item -/

/-- Running a handler to its end is running its first node and then the rest:
`run` and `step` agree node by node. -/
theorem run_eq_run_step (faults : Nat → Option String) (p : Prog) (s : Store) (c : Session) :
    run faults p s c =
      run faults (step (faults c.sent.length) p s c).1 (step (faults c.sent.length) p s c).2.1
        (step (faults c.sent.length) p s c).2.2 := by
  cases p <;> rfl

theorem selectItem_deleteBids (item_id : String) (id : Nat) (s : Store) :
    selectItem item_id (deleteBids id s) = selectItem item_id s := rfl

theorem closed_after_commit (item_id : String) (id rid now : Nat) (t : Store) :
    Closed item_id id rid (deleteBids id (updateItem rid item_id now t)) := by
  have hdel : ∀ b ∈ (deleteBids id (updateItem rid item_id now t)).bids,
      b.ewaste_item_id ≠ id := by
    intro b hb
    simp only [deleteBids, List.mem_filter, Bool.not_eq_true', beq_eq_false_iff_ne] at hb
    exact hb.2
  refine ⟨?_, ?_, ?_, hdel⟩
  · exact selectItem_updateItem rid item_id now t
  · rw [selectBid_eq_nil]
    intro b hb hid
    exact absurd hid (hdel b hb)
  · intro it hit hid
    exact updateItem_sold rid item_id now t it hit hid

theorem selectItem_emptyStore (item_id : String) : selectItem item_id emptyStore = [] := by
  simp [selectItem, emptyStore]

theorem selectBid_emptyStore (id : Nat) : selectBid id emptyStore = [] := by
  simp [selectBid, joinBidsRecyclers, emptyStore, orderByAmountDesc]

theorem step_stage (s : Store) (item_id : String) (now : Nat)
    (item : ItemRow) (items : List ItemRow) (w : BidRow) (ws : List BidRow)
    (hi : selectItem item_id s = item :: items) (hb : selectBid item.id s = w :: ws)
    (x : Stage) (other : Bool) (t : Store)
    (h0 : x.committed = false → other = false → t = s)
    (h1 : other = true → Closed item_id item.id w.recycler_id t) :
    (step none (Stage.request s item_id now x).prog t (Stage.request s item_id now x).session).1 =
        (Stage.request s item_id now (x.next other)).prog ∧
      (step none (Stage.request s item_id now x).prog t
        (Stage.request s item_id now x).session).2.2 =
        (Stage.request s item_id now (x.next other)).session := by
  cases other
  · have ht := h0
    cases x <;>
      first
      | (have ht := h0 rfl rfl
         subst ht
         simp [Stage.request, Stage.next, Request.advanceN, Request.advance, Request.start, step,
           closeBidding, perform, Await.exec, Await.stmt, Session.init, view, Write.apply, hi, hb,
           selectItem_emptyStore, selectBid_emptyStore])
      | simp [Stage.request, Stage.next, Request.advanceN, Request.advance, Request.start, step,
           closeBidding, perform, Await.exec, Await.stmt, Session.init, view, Write.apply, hi, hb,
           selectItem_emptyStore, selectBid_emptyStore]
  · obtain ⟨hi2, hb2, -, -⟩ := h1 rfl
    cases x <;>
      simp [Stage.request, Stage.next, Request.advanceN, Request.advance, Request.start, step,
           closeBidding, perform, Await.exec, Await.stmt, Session.init, view, Write.apply, hi, hb,
           selectItem_emptyStore, selectBid_emptyStore, hi2, hb2]


theorem step_stage_store (s : Store) (item_id : String) (now : Nat)
    (item : ItemRow) (items : List ItemRow) (w : BidRow) (ws : List BidRow)
    (hi : selectItem item_id s = item :: items) (hb : selectBid item.id s = w :: ws)
    (x : Stage) (other : Bool) (t : Store)
    (h0 : x.committed = false → other = false → t = s)
    (h1 : x.committed = true ∨ other = true → Closed item_id item.id w.recycler_id t) :
    ((x.next other).committed = false → other = false →
      (step none (Stage.request s item_id now x).prog t
        (Stage.request s item_id now x).session).2.1 = s) ∧
    ((x.next other).committed = true ∨ other = true →
      Closed item_id item.id w.recycler_id
        (step none (Stage.request s item_id now x).prog t
          (Stage.request s item_id now x).session).2.1) := by
  have hc := closed_after_commit item_id item.id w.recycler_id now t
  cases other
  · cases x <;>
      first
      | (have ht := h0 rfl rfl
         subst ht
         simp [Stage.request, Stage.next, Stage.committed, Request.advanceN, Request.advance,
      Request.start, step, closeBidding, perform, Await.exec, Await.stmt, Session.init, view,
      Write.apply, hi, hb, selectItem_emptyStore, selectBid_emptyStore, hc])
      | (have ht := h1 (Or.inl rfl)
         simp [Stage.request, Stage.next, Stage.committed, Request.advanceN, Request.advance,
      Request.start, step, closeBidding, perform, Await.exec, Await.stmt, Session.init, view,
      Write.apply, hi, hb, selectItem_emptyStore, selectBid_emptyStore, ht])
  · have ht := h1 (Or.inr rfl)
    have hi2 := ht.1
    have hb2 := ht.2.1
    cases x <;>
      simp [Stage.request, Stage.next, Stage.committed, Request.advanceN, Request.advance,
      Request.start, step, closeBidding, perform, Await.exec, Await.stmt, Session.init, view,
      Write.apply, hi, hb, selectItem_emptyStore, selectBid_emptyStore, hi2, hb2, ht, hc]


theorem interleave_stages (s : Store) (item_id : String) (now1 now2 : Nat)
    (item : ItemRow) (items : List ItemRow) (w : BidRow) (ws : List BidRow)
    (hi : selectItem item_id s = item :: items) (hb : selectBid item.id s = w :: ws) :
    ∀ (sched : List Bool) (a b : Stage) (t : Store),
      StoreAt s item_id item.id w.recycler_id t a b →
      (interleave sched t (Stage.request s item_id now1 a)
          (Stage.request s item_id now2 b)).2.1 =
        Stage.request s item_id now1 (stagesAfter sched (a, b)).1 ∧
      (interleave sched t (Stage.request s item_id now1 a)
          (Stage.request s item_id now2 b)).2.2 =
        Stage.request s item_id now2 (stagesAfter sched (a, b)).2 ∧
      StoreAt s item_id item.id w.recycler_id
        (interleave sched t (Stage.request s item_id now1 a)
          (Stage.request s item_id now2 b)).1
        (stagesAfter sched (a, b)).1 (stagesAfter sched (a, b)).2 := by
  intro sched
  induction sched with
  | nil =>
    intro a b t ht
    exact ⟨rfl, rfl, ht⟩
  | cons c rest ih =>
    intro a b t ht
    cases c
    · obtain ⟨hp, hs⟩ := step_stage s item_id now1 item items w ws hi hb a b.committed t
        ht.1 (fun h => ht.2 (Or.inr h))
      have hst := step_stage_store s item_id now1 item items w ws hi hb a b.committed t
        ht.1 ht.2
      simp only [interleave, stagesAfter]
      rw [hp, hs]
      exact ih (a.next b.committed) b _ hst
    · obtain ⟨hp, hs⟩ := step_stage s item_id now2 item items w ws hi hb b a.committed t
        (fun h1 h2 => ht.1 h2 h1) (fun h => ht.2 (Or.inl h))
      have hst := step_stage_store s item_id now2 item items w ws hi hb b a.committed t
        (fun h1 h2 => ht.1 h2 h1) (fun h => ht.2 (Or.symm h))
      simp only [interleave, stagesAfter]
      rw [hp, hs]
      exact ih a (b.next a.committed) _
        ⟨fun h1 h2 => hst.1 h2 h1, fun h => hst.2 (Or.symm h)⟩

theorem stagesAfter_append (p q : List Bool) (x : Stage × Stage) :
    stagesAfter (p ++ q) x = stagesAfter q (stagesAfter p x) := by
  induction p generalizing x with
  | nil => rfl
  | cons c rest ih => cases c <;> simp [stagesAfter, ih]

/-- A property of the two stages that every node of either call keeps holds
after every schedule. -/
theorem stagesAfter_keeps (I : Stage → Stage → Bool)
    (h : ∀ a b, I a b = true →
      I (a.next b.committed) b = true ∧ I a (b.next a.committed) = true) :
    ∀ (sched : List Bool) (x : Stage × Stage), I x.1 x.2 = true →
      I (stagesAfter sched x).1 (stagesAfter sched x).2 = true := by
  intro sched
  induction sched with
  | nil => intro x hx; exact hx
  | cons c rest ih =>
    intro x hx
    cases c
    · exact ih _ (h x.1 x.2 hx).1
    · exact ih _ (h x.1 x.2 hx).2

theorem request_observed (s : Store) (item_id : String) (now : Nat)
    (item : ItemRow) (items : List ItemRow) (w : BidRow) (ws : List BidRow)
    (hi : selectItem item_id s = item :: items) (hb : selectBid item.id s = w :: ws)
    (x : Stage) :
    (Stage.request s item_id now x).prog.finished = x.finished ∧
    (Stage.request s item_id now x).session.responses = x.responses item_id item w ∧
    (Stage.request s item_id now x).session.committed = x.committed ∧
    (Stage.request s item_id now x).session.lookedUpItem = x.lookedUpItem ∧
    (Stage.request s item_id now x).session.lookedUpBids = x.lookedUpBids := by
  cases x <;>
    simp [Stage.request, Request.advanceN, Request.advance, Request.start, step, closeBidding,
    perform, Await.exec, Await.stmt, Session.init, view, Write.apply, hi, hb,
    selectItem_emptyStore, selectBid_emptyStore, Prog.finished, Stage.finished, Stage.responses, Stage.committed,
      Stage.lookedUpItem, Stage.lookedUpBids, Session.committed, Session.lookedUpItem,
      Session.lookedUpBids]


/-! ### What the stages of two calls can be -/

/-- A call is refused only after the other has committed. -/
theorem stages_refused_after_commit (sched : List Bool) :
    ((stagesAfter sched (.s0, .s0)).1.refused = true →
      (stagesAfter sched (.s0, .s0)).2.committed = true) ∧
    ((stagesAfter sched (.s0, .s0)).2.refused = true →
      (stagesAfter sched (.s0, .s0)).1.committed = true) := by
  have h := stagesAfter_keeps
    (fun a b => (!a.refused || b.committed) && (!b.refused || a.committed))
    (by intro a b; cases a <;> cases b <;> decide) sched (.s0, .s0) (by decide)
  revert h
  generalize (stagesAfter sched (.s0, .s0)).1 = a
  generalize (stagesAfter sched (.s0, .s0)).2 = b
  cases a <;> cases b <;> decide

/-- Once one call has committed while the other has not looked the item up,
the first ends with the success body and the other on the 404 path. -/
theorem stages_lookup_after_commit (c : Bool) (sched : List Bool) (x : Stage × Stage)
    (h1 : (pickOf c x).committed = true) (h2 : (pickOf (!c) x).lookedUpItem = false)
    (hf : ∀ d, (pickOf d (stagesAfter sched x)).finished = true) :
    pickOf c (stagesAfter sched x) = .h9 ∧ pickOf (!c) (stagesAfter sched x) = .n6 := by
  have hf0 := hf false
  have hf1 := hf true
  cases c
  · have h := stagesAfter_keeps
      (fun a b => a.committed && (!b.lookedUpItem || (b.refused && !b.lookedUpBids)))
      (by intro a b; cases a <;> cases b <;> decide) sched x
      (by
        simp only [pickOf, Bool.not_false] at h1 h2
        simp [h1, h2])
    revert h hf0 hf1
    simp only [pickOf, Bool.not_false]
    generalize (stagesAfter sched x).1 = a
    generalize (stagesAfter sched x).2 = b
    cases a <;> cases b <;> decide
  · have h := stagesAfter_keeps
      (fun b a => a.committed && (!b.lookedUpItem || (b.refused && !b.lookedUpBids)))
      (by intro a b; cases a <;> cases b <;> decide) sched x
      (by
        simp only [pickOf, Bool.not_true] at h1 h2
        simp [h1, h2])
    revert h hf0 hf1
    simp only [pickOf, Bool.not_true]
    generalize (stagesAfter sched x).1 = a
    generalize (stagesAfter sched x).2 = b
    cases a <;> cases b <;> decide


/-- When one call commits after the other has looked the item up and before
it looks the bids up, the first ends with the success body and the other on
the 400 path. -/
theorem stages_bid_lookup_after_commit (c : Bool) (p2 p3 : List Bool) (x : Stage × Stage)
    (hJ : (pickOf (!c) x).refused = true → (pickOf c x).committed = true)
    (h1 : (pickOf c x).committed = false) (h2 : (pickOf (!c) x).lookedUpItem = true)
    (h3 : (pickOf c (stagesAfter p2 x)).committed = true)
    (h4 : (pickOf (!c) (stagesAfter p2 x)).lookedUpBids = false)
    (hf : ∀ d, (pickOf d (stagesAfter p3 (stagesAfter p2 x))).finished = true) :
    pickOf c (stagesAfter p3 (stagesAfter p2 x)) = .h9 ∧
      pickOf (!c) (stagesAfter p3 (stagesAfter p2 x)) = .b7 := by
  have hf0 := hf false
  have hf1 := hf true
  cases c
  · simp only [pickOf, Bool.not_false] at hJ h1 h2 h3 h4 hf0 hf1 ⊢
    have hx : (x.2.lookedUpItem && (!x.2.refused || x.2.lookedUpBids)) = true := by
      revert hJ h1 h2
      generalize x.1 = a
      generalize x.2 = b
      cases a <;> cases b <;> decide
    have hm := stagesAfter_keeps
      (fun _ b => b.lookedUpItem && (!b.refused || b.lookedUpBids))
      (by intro a b; cases a <;> cases b <;> decide) p2 x hx
    have hk : ((stagesAfter p2 x).1.committed && ((stagesAfter p2 x).2.lookedUpItem &&
        ((stagesAfter p2 x).2.refused == (stagesAfter p2 x).2.lookedUpBids))) = true := by
      revert hm h3 h4
      generalize (stagesAfter p2 x).1 = a
      generalize (stagesAfter p2 x).2 = b
      cases a <;> cases b <;> decide
    have h := stagesAfter_keeps
      (fun a b => a.committed && (b.lookedUpItem && (b.refused == b.lookedUpBids)))
      (by intro a b; cases a <;> cases b <;> decide) p3 (stagesAfter p2 x) hk
    revert h hf0 hf1
    generalize (stagesAfter p3 (stagesAfter p2 x)).1 = a
    generalize (stagesAfter p3 (stagesAfter p2 x)).2 = b
    cases a <;> cases b <;> decide
  · simp only [pickOf, Bool.not_true] at hJ h1 h2 h3 h4 hf0 hf1 ⊢
    have hx : (x.1.lookedUpItem && (!x.1.refused || x.1.lookedUpBids)) = true := by
      revert hJ h1 h2
      generalize x.1 = a
      generalize x.2 = b
      cases a <;> cases b <;> decide
    have hm := stagesAfter_keeps
      (fun a _ => a.lookedUpItem && (!a.refused || a.lookedUpBids))
      (by intro a b; cases a <;> cases b <;> decide) p2 x hx
    have hk : ((stagesAfter p2 x).2.committed && ((stagesAfter p2 x).1.lookedUpItem &&
        ((stagesAfter p2 x).1.refused == (stagesAfter p2 x).1.lookedUpBids))) = true := by
      revert hm h3 h4
      generalize (stagesAfter p2 x).1 = a
      generalize (stagesAfter p2 x).2 = b
      cases a <;> cases b <;> decide
    have h := stagesAfter_keeps
      (fun b a => a.committed && (b.lookedUpItem && (b.refused == b.lookedUpBids)))
      (by intro a b; cases a <;> cases b <;> decide) p3 (stagesAfter p2 x) hk
    revert h hf0 hf1
    generalize (stagesAfter p3 (stagesAfter p2 x)).1 = a
    generalize (stagesAfter p3 (stagesAfter p2 x)).2 = b
    cases a <;> cases b <;> decide

/-- When both calls have looked the bids up before either has committed, both
end with the success body. -/
theorem stages_lookups_before_commit (sched : List Bool) (x : Stage × Stage)
    (hJ1 : x.1.refused = true → x.2.committed = true)
    (hJ2 : x.2.refused = true → x.1.committed = true)
    (h1 : x.1.committed = false) (h2 : x.2.committed = false)
    (h3 : x.1.lookedUpBids = true) (h4 : x.2.lookedUpBids = true)
    (hf : ∀ d, (pickOf d (stagesAfter sched x)).finished = true) :
    (stagesAfter sched x).1 = .h9 ∧ (stagesAfter sched x).2 = .h9 := by
  have hf0 := hf false
  have hf1 := hf true
  simp only [pickOf] at hf0 hf1
  have hx : ((x.1.lookedUpBids && !x.1.refused) && (x.2.lookedUpBids && !x.2.refused)) = true := by
    revert hJ1 hJ2 h1 h2 h3 h4
    generalize x.1 = a
    generalize x.2 = b
    cases a <;> cases b <;> decide
  have h := stagesAfter_keeps
    (fun a b => (a.lookedUpBids && !a.refused) && (b.lookedUpBids && !b.refused))
    (by intro a b; cases a <;> cases b <;> decide) sched x hx
  revert h hf0 hf1
  generalize (stagesAfter sched x).1 = a
  generalize (stagesAfter sched x).2 = b
  cases a <;> cases b <;> decide


/-- What two interleaved calls show after any schedule is what their stages
say, and the committed store stands to the stages as `StoreAt` says. -/
theorem twoCalls_observed (s : Store) (item_id : String) (now1 now2 : Nat)
    (item : ItemRow) (items : List ItemRow) (w : BidRow) (ws : List BidRow)
    (hi : selectItem item_id s = item :: items) (hb : selectBid item.id s = w :: ws)
    (sched : List Bool) :
    (∀ c, (theCall c (twoCalls sched s item_id now1 now2)).prog.finished =
        (pickOf c (stagesAfter sched (.s0, .s0))).finished ∧
      (theCall c (twoCalls sched s item_id now1 now2)).session.responses =
        (pickOf c (stagesAfter sched (.s0, .s0))).responses item_id item w ∧
      (theCall c (twoCalls sched s item_id now1 now2)).session.committed =
        (pickOf c (stagesAfter sched (.s0, .s0))).committed ∧
      (theCall c (twoCalls sched s item_id now1 now2)).session.lookedUpItem =
        (pickOf c (stagesAfter sched (.s0, .s0))).lookedUpItem ∧
      (theCall c (twoCalls sched s item_id now1 now2)).session.lookedUpBids =
        (pickOf c (stagesAfter sched (.s0, .s0))).lookedUpBids) ∧
    StoreAt s item_id item.id w.recycler_id (twoCalls sched s item_id now1 now2).1
      (stagesAfter sched (.s0, .s0)).1 (stagesAfter sched (.s0, .s0)).2 := by
  obtain ⟨ha, hb', hst⟩ := interleave_stages s item_id now1 now2 item items w ws hi hb sched
    .s0 .s0 s ⟨fun _ _ => rfl, fun h => by simp [Stage.committed] at h⟩
  refine ⟨?_, hst⟩
  intro c
  cases c
  · have : theCall false (twoCalls sched s item_id now1 now2) =
        Stage.request s item_id now1 (stagesAfter sched (.s0, .s0)).1 := ha
    rw [this]
    exact request_observed s item_id now1 item items w ws hi hb _
  · have : theCall true (twoCalls sched s item_id now1 now2) =
        Stage.request s item_id now2 (stagesAfter sched (.s0, .s0)).2 := hb'
    rw [this]
    exact request_observed s item_id now2 item items w ws hi hb _

/-- C8, as stated, fails. On `demoStore`, two calls for `X1` whose lookups both
run before either commits both answer with HTTP 200 and the success body, and
neither answers 404; and the `UPDATE` is not gated on `available`: sent for the
sold item `X3`, it rewrites its coordinator. -/
theorem closeBidding_race_both_succeed :
    (interleave overlappedSchedule demoStore (Request.start "X1" 5)
        (Request.start "X1" 6)).2.1.session.responses = [closed "X1" demoItemRow demoBidRow] ∧
    (interleave overlappedSchedule demoStore (Request.start "X1" 5)
        (Request.start "X1" 6)).2.2.session.responses = [closed "X1" demoItemRow demoBidRow] ∧
    (closed "X1" demoItemRow demoBidRow).status = 200 ∧
    (closed "X1" demoItemRow demoBidRow).success = true ∧
    notEligible ∉ (interleave overlappedSchedule demoStore (Request.start "X1" 5)
        (Request.start "X1" 6)).2.1.session.responses ∧
    notEligible ∉ (interleave overlappedSchedule demoStore (Request.start "X1" 5)
        (Request.start "X1" 6)).2.2.session.responses ∧
    (∃ it ∈ demoStore.items, it.unique_id = "X3" ∧ it.status = "sold" ∧
      it.coordinator_id = some 10) ∧
    (∀ it ∈ (updateItem 11 "X3" 7 demoStore).items, it.unique_id = "X3" →
      it.coordinator_id = some 11 ∧ it.updated_at = 7) := by
  decide

/-- In a schedule after which a call has committed there is a first node that
commits: before it neither call has committed, it lets one call commit, and it
leaves the other call where it was. -/
theorem stages_first_commit :
    ∀ (sched : List Bool) (x : Stage × Stage),
      x.1.committed = false → x.2.committed = false →
      ((stagesAfter sched x).1.committed = true ∨ (stagesAfter sched x).2.committed = true) →
      ∃ pre c post, sched = pre ++ c :: post ∧
        (∀ d, (pickOf d (stagesAfter pre x)).committed = false) ∧
        (pickOf c (stagesAfter (pre ++ [c]) x)).committed = true ∧
        pickOf (!c) (stagesAfter (pre ++ [c]) x) = pickOf (!c) (stagesAfter pre x) := by
  intro sched
  induction sched with
  | nil =>
    intro x h1 h2 h
    rcases h with h | h
    · rw [stagesAfter, h1] at h; exact absurd h (by decide)
    · rw [stagesAfter, h2] at h; exact absurd h (by decide)
  | cons c rest ih =>
    intro x h1 h2 h
    have hall : ∀ d, (pickOf d (stagesAfter [] x)).committed = false := by
      intro d
      cases d
      · exact h1
      · exact h2
    cases c
    · by_cases hc : (x.1.next x.2.committed).committed = true
      · exact ⟨[], false, rest, rfl, hall, hc, rfl⟩
      · obtain ⟨pre, c, post, hs, hp, hcm, hsame⟩ :=
          ih (x.1.next x.2.committed, x.2) (by simpa using hc) h2 h
        exact ⟨false :: pre, c, post, by rw [hs]; rfl, hp, hcm, hsame⟩
    · by_cases hc : (x.2.next x.1.committed).committed = true
      · exact ⟨[], true, rest, rfl, hall, hc, rfl⟩
      · obtain ⟨pre, c, post, hs, hp, hcm, hsame⟩ :=
          ih (x.1, x.2.next x.1.committed) h1 (by simpa using hc) h
        exact ⟨true :: pre, c, post, by rw [hs]; rfl, hp, hcm, hsame⟩


/-- Every schedule after which a call has committed splits so that one of
three things holds of the call `c` that commits first and of the other: the
other has not looked the item up when `c` has committed; or the other has
looked the item up before `c` commits and has not looked the bids up when `c`
has committed; or both have looked the bids up while neither has committed. -/
theorem stages_split (sched : List Bool)
    (h : (stagesAfter sched (.s0, .s0)).1.committed = true ∨
      (stagesAfter sched (.s0, .s0)).2.committed = true) :
    ∃ c q1 q2 q3, q1 ++ q2 ++ q3 = sched ∧
      (((pickOf c (stagesAfter (q1 ++ q2) (.s0, .s0))).committed = true ∧
          (pickOf (!c) (stagesAfter (q1 ++ q2) (.s0, .s0))).lookedUpItem = false) ∨
        ((pickOf c (stagesAfter q1 (.s0, .s0))).committed = false ∧
          (pickOf (!c) (stagesAfter q1 (.s0, .s0))).lookedUpItem = true ∧
          (pickOf c (stagesAfter (q1 ++ q2) (.s0, .s0))).committed = true ∧
          (pickOf (!c) (stagesAfter (q1 ++ q2) (.s0, .s0))).lookedUpBids = false) ∨
        ((∀ d, (pickOf d (stagesAfter (q1 ++ q2) (.s0, .s0))).committed = false) ∧
          ∀ d, (pickOf d (stagesAfter (q1 ++ q2) (.s0, .s0))).lookedUpBids = true)) := by
  obtain ⟨pre, c, post, hs, hp, hcm, hsame⟩ :=
    stages_first_commit sched (.s0, .s0) rfl rfl h
  have hJ := stages_refused_after_commit pre
  have happ : stagesAfter (pre ++ [c]) (.s0, .s0) =
      stagesAfter [c] (stagesAfter pre (.s0, .s0)) := stagesAfter_append _ _ _
  have hsched : pre ++ [c] ++ post = sched := by rw [hs]; simp
  have hsched2 : ([] : List Bool) ++ pre ++ (c :: post) = sched := by rw [hs]; simp
  have hsched3 : ([] : List Bool) ++ (pre ++ [c]) ++ post = sched := by rw [hs]; simp
  -- the call that commits has looked the bids up, the other is not refused
  have hkey : (pickOf c (stagesAfter pre (.s0, .s0))).lookedUpBids = true ∧
      (pickOf (!c) (stagesAfter pre (.s0, .s0))).refused = false := by
    have hp0 := hp false
    have hp1 := hp true
    rw [happ] at hcm
    revert hJ hp0 hp1 hcm
    generalize stagesAfter pre (.s0, .s0) = y
    obtain ⟨a, b⟩ := y
    cases c <;> cases a <;> cases b <;> decide
  by_cases hitem : (pickOf (!c) (stagesAfter pre (.s0, .s0))).lookedUpItem = true
  · by_cases hbids : (pickOf (!c) (stagesAfter pre (.s0, .s0))).lookedUpBids = true
    · refine ⟨c, [], pre, c :: post, hsched2, Or.inr (Or.inr ⟨?_, ?_⟩)⟩
      · simpa using hp
      · intro d
        simp only [List.nil_append]
        cases c <;> cases d
        · exact hkey.1
        · exact hbids
        · exact hbids
        · exact hkey.1
    · refine ⟨c, pre, [c], post, hsched, Or.inr (Or.inl ⟨hp c, hitem, hcm, ?_⟩)⟩
      rw [hsame]
      simpa using hbids
  · refine ⟨c, [], pre ++ [c], post, hsched3, Or.inl ⟨?_, ?_⟩⟩
    · simpa using hcm
    · simp only [List.nil_append]
      rw [hsame]
      simpa using hitem

/-- Two interleaved calls that both run to their end, the schedule split in
three: what each answers, what the store holds, and how the answer of the
other call follows from where its lookups fall around the commit of `first`. -/
theorem twoCalls_cases (item_id : String) (now1 now2 : Nat) (s : Store)
    (item : ItemRow) (items : List ItemRow) (w : BidRow) (ws : List BidRow)
    (hi : selectItem item_id s = item :: items) (hb : selectBid item.id s = w :: ws)
    (p1 p2 p3 : List Bool) (first : Bool)
    (hfin : ∀ c, (theCall c (twoCalls (p1 ++ p2 ++ p3) s item_id now1 now2)).prog.finished
      = true) :
    (∀ c,
      (theCall c (twoCalls (p1 ++ p2 ++ p3) s item_id now1 now2)).session.responses =
          [closed item_id item w] ∨
        (theCall c (twoCalls (p1 ++ p2 ++ p3) s item_id now1 now2)).session.responses =
          [notEligible] ∨
        (theCall c (twoCalls (p1 ++ p2 ++ p3) s item_id now1 now2)).session.responses =
          [noBidsFound]) ∧
    (∃ c, (theCall c (twoCalls (p1 ++ p2 ++ p3) s item_id now1 now2)).session.responses =
      [closed item_id item w]) ∧
    (∀ it ∈ (twoCalls (p1 ++ p2 ++ p3) s item_id now1 now2).1.items, it.unique_id = item_id →
      it.status = "sold" ∧ it.coordinator_id = some w.recycler_id) ∧
    (∀ b ∈ (twoCalls (p1 ++ p2 ++ p3) s item_id now1 now2).1.bids,
      b.ewaste_item_id ≠ item.id) ∧
    ((theCall first (twoCalls (p1 ++ p2) s item_id now1 now2)).session.committed = true →
      (theCall (!first) (twoCalls (p1 ++ p2) s item_id now1 now2)).session.lookedUpItem
        = false →
      (theCall first (twoCalls (p1 ++ p2 ++ p3) s item_id now1 now2)).session.responses =
          [closed item_id item w] ∧
        (theCall (!first) (twoCalls (p1 ++ p2 ++ p3) s item_id now1 now2)).session.responses =
          [notEligible]) ∧
    ((theCall first (twoCalls p1 s item_id now1 now2)).session.committed = false →
      (theCall (!first) (twoCalls p1 s item_id now1 now2)).session.lookedUpItem = true →
      (theCall first (twoCalls (p1 ++ p2) s item_id now1 now2)).session.committed = true →
      (theCall (!first) (twoCalls (p1 ++ p2) s item_id now1 now2)).session.lookedUpBids
        = false →
      (theCall first (twoCalls (p1 ++ p2 ++ p3) s item_id now1 now2)).session.responses =
          [closed item_id item w] ∧
        (theCall (!first) (twoCalls (p1 ++ p2 ++ p3) s item_id now1 now2)).session.responses =
          [noBidsFound]) ∧
    ((∀ c, (theCall c (twoCalls (p1 ++ p2) s item_id now1 now2)).session.committed = false) →
      (∀ c, (theCall c (twoCalls (p1 ++ p2) s item_id now1 now2)).session.lookedUpBids
        = true) →
      ∀ c, (theCall c (twoCalls (p1 ++ p2 ++ p3) s item_id now1 now2)).session.responses =
        [closed item_id item w]) := by
  obtain ⟨o1, -⟩ := twoCalls_observed s item_id now1 now2 item items w ws hi hb p1
  obtain ⟨o2, -⟩ := twoCalls_observed s item_id now1 now2 item items w ws hi hb (p1 ++ p2)
  obtain ⟨o3, hst⟩ := twoCalls_observed s item_id now1 now2 item items w ws hi hb
    (p1 ++ p2 ++ p3)
  have hJ1 := stages_refused_after_commit p1
  have hJ2 := stages_refused_after_commit (p1 ++ p2)
  have hJ3 := stages_refused_after_commit (p1 ++ p2 ++ p3)
  have e3 : stagesAfter (p1 ++ p2 ++ p3) (.s0, .s0) =
      stagesAfter p3 (stagesAfter (p1 ++ p2) (.s0, .s0)) := stagesAfter_append _ _ _
  have e2 : stagesAfter (p1 ++ p2) (.s0, .s0) = stagesAfter p2 (stagesAfter p1 (.s0, .s0)) :=
    stagesAfter_append _ _ _
  have hf : ∀ d, (pickOf d (stagesAfter (p1 ++ p2 ++ p3) (.s0, .s0))).finished = true := by
    intro d
    rw [← (o3 d).1]
    exact hfin d
  have hresp : ∀ (c : Bool) (x : Stage),
      pickOf c (stagesAfter (p1 ++ p2 ++ p3) (.s0, .s0)) = x →
      (theCall c (twoCalls (p1 ++ p2 ++ p3) s item_id now1 now2)).session.responses =
        x.responses item_id item w := by
    intro c x hx
    rw [(o3 c).2.1, hx]
  have hone : (stagesAfter (p1 ++ p2 ++ p3) (.s0, .s0)).1 = .h9 ∨
      (stagesAfter (p1 ++ p2 ++ p3) (.s0, .s0)).2 = .h9 := by
    have hf0 := hf false
    have hf1 := hf true
    simp only [pickOf] at hf0 hf1
    revert hJ3 hf0 hf1
    generalize (stagesAfter (p1 ++ p2 ++ p3) (.s0, .s0)).1 = a
    generalize (stagesAfter (p1 ++ p2 ++ p3) (.s0, .s0)).2 = b
    cases a <;> cases b <;> decide
  have hclosed : Closed item_id item.id w.recycler_id
      (twoCalls (p1 ++ p2 ++ p3) s item_id now1 now2).1 := by
    apply hst.2
    rcases hone with h | h
    · exact Or.inl (by rw [h]; rfl)
    · exact Or.inr (by rw [h]; rfl)
  refine ⟨?_, ?_, hclosed.2.2.1, hclosed.2.2.2, ?_, ?_, ?_⟩
  · intro c
    have hfc := hf c
    rw [(o3 c).2.1]
    revert hfc
    generalize pickOf c (stagesAfter (p1 ++ p2 ++ p3) (.s0, .s0)) = x
    cases x <;> simp [Stage.finished, Stage.responses]
  · rcases hone with h | h
    · exact ⟨false, hresp false .h9 h⟩
    · exact ⟨true, hresp true .h9 h⟩
  · intro h1 h2
    rw [(o2 first).2.2.1] at h1
    rw [(o2 (!first)).2.2.2.1] at h2
    have := stages_lookup_after_commit first p3 (stagesAfter (p1 ++ p2) (.s0, .s0)) h1 h2
      (by rw [← e3]; exact hf)
    rw [← e3] at this
    exact ⟨hresp first .h9 this.1, hresp (!first) .n6 this.2⟩
  · intro h1 h2 h3 h4
    rw [(o1 first).2.2.1] at h1
    rw [(o1 (!first)).2.2.2.1] at h2
    rw [(o2 first).2.2.1, e2] at h3
    rw [(o2 (!first)).2.2.2.2, e2] at h4
    have hJ : (pickOf (!first) (stagesAfter p1 (.s0, .s0))).refused = true →
        (pickOf first (stagesAfter p1 (.s0, .s0))).committed = true := by
      cases first
      · exact hJ1.2
      · exact hJ1.1
    have := stages_bid_lookup_after_commit first p2 p3 (stagesAfter p1 (.s0, .s0)) hJ h1 h2
      h3 h4 (by rw [← e2, ← e3]; exact hf)
    rw [← e2, ← e3] at this
    exact ⟨hresp first .h9 this.1, hresp (!first) .b7 this.2⟩
  · intro h1 h2 c
    have h1a := h1 false
    have h1b := h1 true
    have h2a := h2 false
    have h2b := h2 true
    rw [(o2 false).2.2.1] at h1a
    rw [(o2 true).2.2.1] at h1b
    rw [(o2 false).2.2.2.2] at h2a
    rw [(o2 true).2.2.2.2] at h2b
    have := stages_lookups_before_commit p3 (stagesAfter (p1 ++ p2) (.s0, .s0)) hJ2.1 hJ2.2
      h1a h1b h2a h2b (by rw [← e3]; exact hf)
    rw [← e3] at this
    cases c
    · exact hresp false .h9 this.1
    · exact hresp true .h9 this.2

/-- C8, amended. Two calls of `closeBidding` for the same `item_id`, on a store
that rejects nothing, where the item lookup finds the item and the bid lookup
a winning bid, interleaved by any schedule that lets both calls run to their
end. Each call answers once, with the success body, the 404 body or the 400
body, and at least one answers with success; the committed store ends with
every item carrying `item_id` sold to the recycler of the winning bid and with
no bid on the internal id of the item. For every way of cutting the schedule
in three, `p1 ++ p2 ++ p3`: when the call `first` has committed (after
`p1 ++ p2`) before the item lookup of the other has answered, `first` answers
with success and the other 404; when the item lookup of the other has answered
(after `p1`) before `first` has committed, and `first` has committed (after
`p1 ++ p2`) before the bid lookup of the other has answered, `first` answers
with success and the other 400; when both bid lookups have answered (after
`p1 ++ p2`) before either call has committed, both answer with success, for
the status is checked by the item lookup only and the `UPDATE` is keyed on
`unique_id` alone. And every such schedule can be cut so that one of the three
cases applies. -/
theorem closeBidding_two_calls (item_id : String) (now1 now2 : Nat) (s : Store)
    (item : ItemRow) (items : List ItemRow) (w : BidRow) (ws : List BidRow)
    (hi : selectItem item_id s = item :: items) (hb : selectBid item.id s = w :: ws)
    (sched : List Bool)
    (hfin : ∀ c, (theCall c (twoCalls sched s item_id now1 now2)).prog.finished = true) :
    (∀ c,
      (theCall c (twoCalls sched s item_id now1 now2)).session.responses = [closed item_id item w] ∨
        (theCall c (twoCalls sched s item_id now1 now2)).session.responses = [notEligible] ∨
        (theCall c (twoCalls sched s item_id now1 now2)).session.responses = [noBidsFound]) ∧
    (∃ c, (theCall c (twoCalls sched s item_id now1 now2)).session.responses = [closed item_id item w]) ∧
    (∀ it ∈ (twoCalls sched s item_id now1 now2).1.items, it.unique_id = item_id →
      it.status = "sold" ∧ it.coordinator_id = some w.recycler_id) ∧
    (∀ b ∈ (twoCalls sched s item_id now1 now2).1.bids, b.ewaste_item_id ≠ item.id) ∧
    (∀ first p1 p2 p3, p1 ++ p2 ++ p3 = sched →
      ((theCall first (twoCalls (p1 ++ p2) s item_id now1 now2)).session.committed = true →
        (theCall (!first) (twoCalls (p1 ++ p2) s item_id now1 now2)).session.lookedUpItem = false →
        (theCall first (twoCalls sched s item_id now1 now2)).session.responses = [closed item_id item w] ∧
          (theCall (!first) (twoCalls sched s item_id now1 now2)).session.responses = [notEligible]) ∧
      ((theCall first (twoCalls (p1) s item_id now1 now2)).session.committed = false →
        (theCall (!first) (twoCalls (p1) s item_id now1 now2)).session.lookedUpItem = true →
        (theCall first (twoCalls (p1 ++ p2) s item_id now1 now2)).session.committed = true →
        (theCall (!first) (twoCalls (p1 ++ p2) s item_id now1 now2)).session.lookedUpBids = false →
        (theCall first (twoCalls sched s item_id now1 now2)).session.responses = [closed item_id item w] ∧
          (theCall (!first) (twoCalls sched s item_id now1 now2)).session.responses = [noBidsFound]) ∧
      ((∀ c, (theCall c (twoCalls (p1 ++ p2) s item_id now1 now2)).session.committed = false) →
        (∀ c, (theCall c (twoCalls (p1 ++ p2) s item_id now1 now2)).session.lookedUpBids = true) →
        ∀ c, (theCall c (twoCalls sched s item_id now1 now2)).session.responses = [closed item_id item w])) ∧
    ∃ first p1 p2 p3, p1 ++ p2 ++ p3 = sched ∧
      (((theCall first (twoCalls (p1 ++ p2) s item_id now1 now2)).session.committed = true ∧
          (theCall (!first) (twoCalls (p1 ++ p2) s item_id now1 now2)).session.lookedUpItem = false) ∨
        ((theCall first (twoCalls (p1) s item_id now1 now2)).session.committed = false ∧
          (theCall (!first) (twoCalls (p1) s item_id now1 now2)).session.lookedUpItem = true ∧
          (theCall first (twoCalls (p1 ++ p2) s item_id now1 now2)).session.committed = true ∧
          (theCall (!first) (twoCalls (p1 ++ p2) s item_id now1 now2)).session.lookedUpBids = false) ∨
        ((∀ c, (theCall c (twoCalls (p1 ++ p2) s item_id now1 now2)).session.committed = false) ∧
          ∀ c, (theCall c (twoCalls (p1 ++ p2) s item_id now1 now2)).session.lookedUpBids = true)) := by
  have hall := twoCalls_cases item_id now1 now2 s item items w ws hi hb [] [] sched false
    (by simpa using hfin)
  simp only [List.nil_append] at hall
  obtain ⟨r1, r2, r3, r4, -⟩ := hall
  refine ⟨r1, r2, r3, r4, ?_, ?_⟩
  · intro first p1 p2 p3 hsplit
    subst hsplit
    exact (twoCalls_cases item_id now1 now2 s item items w ws hi hb p1 p2 p3 first
      hfin).2.2.2.2
  · obtain ⟨o, -⟩ := twoCalls_observed s item_id now1 now2 item items w ws hi hb sched
    have hcommit : (stagesAfter sched (.s0, .s0)).1.committed = true ∨
        (stagesAfter sched (.s0, .s0)).2.committed = true := by
      obtain ⟨c, hc⟩ := r2
      rw [(o c).2.1] at hc
      have hfc := hfin c
      rw [(o c).1] at hfc
      cases c
      · left
        revert hc hfc
        simp only [pickOf]
        generalize (stagesAfter sched (.s0, .s0)).1 = a
        cases a <;> simp [Stage.responses, Stage.finished, Stage.committed, closed, notEligible,
          noBidsFound]
      · right
        revert hc hfc
        simp only [pickOf]
        generalize (stagesAfter sched (.s0, .s0)).2 = b
        cases b <;> simp [Stage.responses, Stage.finished, Stage.committed, closed, notEligible,
          noBidsFound]
    obtain ⟨c, q1, q2, q3, hq, hcase⟩ := stages_split sched hcommit
    obtain ⟨o1, -⟩ := twoCalls_observed s item_id now1 now2 item items w ws hi hb q1
    obtain ⟨o2, -⟩ := twoCalls_observed s item_id now1 now2 item items w ws hi hb (q1 ++ q2)
    refine ⟨c, q1, q2, q3, hq, ?_⟩
    rcases hcase with ⟨h1, h2⟩ | ⟨h1, h2, h3, h4⟩ | ⟨h1, h2⟩
    · left
      exact ⟨by rw [(o2 c).2.2.1]; exact h1, by rw [(o2 (!c)).2.2.2.1]; exact h2⟩
    · right; left
      exact ⟨by rw [(o1 c).2.2.1]; exact h1, by rw [(o1 (!c)).2.2.2.1]; exact h2,
        by rw [(o2 c).2.2.1]; exact h3, by rw [(o2 (!c)).2.2.2.2]; exact h4⟩
    · right; right
      exact ⟨fun d => by rw [(o2 d).2.2.1]; exact h1 d,
        fun d => by rw [(o2 d).2.2.2.2]; exact h2 d⟩

theorem closeBidding_two_calls_witness :
    selectItem "X1" demoStore = demoItemRow :: [] ∧
    selectBid demoItemRow.id demoStore = demoBidRow :: [] ∧
    (∀ c, (theCall c (twoCalls ([] ++ [false, false, false, false, true, true, true, true] ++ [false, false, false, false, false, true, true, true, true, true]) demoStore "X1" 5 6)).session.responses =
      [closed "X1" demoItemRow demoBidRow]) ∧
    ((theCall true (twoCalls ([] ++ ([false, false] ++ [true, true, true, true, true, true, true, true, true]) ++ [false, false, false, false]) demoStore "X1" 5 6)).session.responses =
        [closed "X1" demoItemRow demoBidRow] ∧
      (theCall (!true) (twoCalls ([] ++ ([false, false] ++ [true, true, true, true, true, true, true, true, true]) ++ [false, false, false, false]) demoStore "X1" 5 6)).session.responses =
        [notEligible]) ∧
    ((theCall true (twoCalls ([false, false, false] ++ [true, true, true, true, true, true, true, true, true] ++ [false, false, false, false]) demoStore "X1" 5 6)).session.responses =
        [closed "X1" demoItemRow demoBidRow] ∧
      (theCall (!true) (twoCalls ([false, false, false] ++ [true, true, true, true, true, true, true, true, true] ++ [false, false, false, false]) demoStore "X1" 5 6)).session.responses =
        [noBidsFound]) :=
  ⟨by decide, by decide,
    ((closeBidding_two_calls "X1" 5 6 demoStore demoItemRow [] demoBidRow [] (by decide)
      (by decide) ([] ++ [false, false, false, false, true, true, true, true] ++ [false, false, false, false, false, true, true, true, true, true])
      (by decide)).2.2.2.2.1 false [] [false, false, false, false, true, true, true, true]
      [false, false, false, false, false, true, true, true, true, true] rfl).2.2 (by decide) (by decide),
    ((closeBidding_two_calls "X1" 5 6 demoStore demoItemRow [] demoBidRow [] (by decide)
      (by decide) ([] ++ ([false, false] ++ [true, true, true, true, true, true, true, true, true]) ++ [false, false, false, false])
      (by decide)).2.2.2.2.1 true [] ([false, false] ++ [true, true, true, true, true, true, true, true, true])
      [false, false, false, false] rfl).1 (by decide) (by decide),
    ((closeBidding_two_calls "X1" 5 6 demoStore demoItemRow [] demoBidRow [] (by decide)
      (by decide) ([false, false, false] ++ [true, true, true, true, true, true, true, true, true] ++ [false, false, false, false])
      (by decide)).2.2.2.2.1 true [false, false, false] [true, true, true, true, true, true, true, true, true]
      [false, false, false, false] rfl).2.1 (by decide) (by decide) (by decide) (by decide)⟩

/-- C9, at the failing inputs. When `pool.connect()` rejects, the handler
writes no response and the rejection leaves it; when an operation inside the
`try` fails and the `ROLLBACK` of the `catch` block fails in turn, the handler
releases the connection, writes no response, and the second rejection leaves
it. -/
theorem closeBidding_store_error_escapes (item_id : String) (now : Nat) (s : Store)
    (e e2 : String) :
    ((closeBiddingOn (faultAt 0 e) item_id now s).2.responses = [] ∧
      (closeBiddingOn (faultAt 0 e) item_id now s).2.thrown = some e ∧
      (closeBiddingOn (faultAt 0 e) item_id now s).2.released = false) ∧
    ((closeBiddingOn (fun n => if n = 1 then some e else if n = 2 then some e2 else none)
        item_id now s).2.responses = [] ∧
      (closeBiddingOn (fun n => if n = 1 then some e else if n = 2 then some e2 else none)
        item_id now s).2.thrown = some e2 ∧
      (closeBiddingOn (fun n => if n = 1 then some e else if n = 2 then some e2 else none)
        item_id now s).2.released = true ∧
      (closeBiddingOn (fun n => if n = 1 then some e else if n = 2 then some e2 else none)
        item_id now s).2.sent =
          [(.connect, true), (.begin, false), (.rollback, false)]) := by
  simp [closeBiddingOn, closeBidding, catchBlock, run, perform, Await.exec, Await.stmt,
    Session.init, faultAt]

end Hackdemo
